import Mathlib

set_option maxRecDepth 4096

/-!
Shallow embedding of the diff/merge engine for automation tracks
(Source/Core/VCS/DiffLogic/AutomationTrackDiffLogic.cpp), together with
theorems about its merge and diff functions.

Modelling conventions:
- `SerializedData` is the opaque ordered payload tree; a default-constructed
  (invalid) value is `SerializedData.invalid`, `SerializedData(tag)` is
  `SerializedData.tree tag []`.  `createCopy` is a deep copy, which in a pure
  value model is the identity.
- Delta type tags and payload tree tags are schema identifiers that the
  engine treats as opaque, pairwise-distinct values compared for equality, so
  they are modelled by the inductive `DeltaType` (with a `custom` constructor
  for identifiers outside the closed set used here).
- Child nodes of a payload tree are either automation-event records, clip
  records, or other nodes; `forEachChildWithType(_, e, automationEvent)`
  corresponds to filtering the `.event` children.
- C++ `float` fields (beat, curvature, controller value) are modelled as `Rat`;
  the code only compares and orders them.
- Event ids are strings, as in the source (`MidiEvent::Id`).
-/

/-- The schema identifiers (Serialization::VCS constants) used by this
DiffLogic: delta type tags and payload tree tags.  `custom` stands for any
identifier outside this closed set. -/
inductive DeltaType where
  | trackPath
  | trackColour
  | trackInstrument
  | trackController
  | timeSignaturesChanged
  | eventsAdded
  | eventsRemoved
  | eventsChanged
  | clipsAdded
  | clipsRemoved
  | clipsChanged
  | custom (tag : String)
  deriving DecidableEq, Repr

/-- An automation event record: id is the stable identity, the remaining
fields are the payload tracked by the diff (AutomationEvent). -/
structure AutomationEvent where
  id : String
  beat : Rat
  curvature : Rat
  controllerValue : Rat
  deriving DecidableEq, Repr

/-- A clip record (pattern entity), an id-keyed record analogous to events. -/
structure Clip where
  id : String
  beat : Rat
  deriving DecidableEq, Repr

/-- A child node of a serialized payload tree: an automation-event record
node, a clip record node, or any other node (opaque). -/
inductive SNode where
  | event (e : AutomationEvent)
  | clip (c : Clip)
  | other (tag : String)
  deriving DecidableEq, Repr

/-- The opaque serialized payload tree (SerializedData): either invalid
(default-constructed) or a tagged node with an ordered list of children. -/
inductive SerializedData where
  | invalid
  | tree (tag : DeltaType) (children : List SNode)
  deriving DecidableEq, Repr

/-- SerializedData::isValid. -/
def SerializedData.isValid : SerializedData → Bool
  | .invalid => false
  | .tree _ _ => true

/-- SerializedData::createCopy — a deep copy; the identity in a value model. -/
def SerializedData.createCopy (s : SerializedData) : SerializedData := s

/-- The tag of a valid payload tree. -/
def SerializedData.tagOf : SerializedData → Option DeltaType
  | .invalid => none
  | .tree t _ => some t

/-- The description string of the deltas synthesized while merging
(Serialization::VCS::headStateDelta). -/
def headStateDescription : String := "headState"

/-- The event children of a payload tree, in order
(forEachChildWithType(_, e, automationEvent) plus AutomationEvent::deserialize). -/
def eventsOf : SerializedData → List AutomationEvent
  | .invalid => []
  | .tree _ children => children.filterMap fun n =>
      match n with
      | .event e => some e
      | _ => none

/-- The clip children of a payload tree, in order. -/
def clipsOf : SerializedData → List Clip
  | .invalid => []
  | .tree _ children => children.filterMap fun n =>
      match n with
      | .clip c => some c
      | _ => none

/-- Modelled from the spec: the MidiEvent comparator (MidiEvent.cpp is not
part of the sources); the spec says events within one sequence are kept
sorted by beat, so OwnedArray::addSorted inserts after every element whose
beat is not greater. -/
def insertByBeat (e : AutomationEvent) : List AutomationEvent → List AutomationEvent
  | [] => [e]
  | x :: xs => if e.beat < x.beat then e :: x :: xs else x :: insertByBeat e xs

/-- Deserializing one sequence inserts every event with addSorted, so the
resulting list is the insertion sort of the children by beat. -/
def sortEvents (l : List AutomationEvent) : List AutomationEvent :=
  l.foldl (fun acc e => insertByBeat e acc) []

/-- deserializeAutoTrackChanges applied to one side: invalid payloads give
the empty sequence, valid ones the beat-sorted event children. -/
def deserializeAutoEvents (s : SerializedData) : List AutomationEvent :=
  sortEvents (eventsOf s)

/-- serializeAutoSequence: a tree with the given tag whose children are the
serialized events, in list order. -/
def serializeAutoSequence (events : List AutomationEvent) (tag : DeltaType) : SerializedData :=
  .tree tag (events.map .event)

/-- Does the sequence contain an event with this id (the inner linear scans
comparing getId()). -/
def hasId (l : List AutomationEvent) (i : String) : Bool :=
  l.any fun e => e.id == i

/-- mergeAutoEventsAdded: keep all state events, append every changes event
whose id is not present in state, serialize as eventsAdded. -/
def mergeAutoEventsAdded (state changes : SerializedData) : SerializedData :=
  let stateNotes := deserializeAutoEvents state
  let changesNotes := deserializeAutoEvents changes
  let result := stateNotes ++ changesNotes.filter fun c => !(hasId stateNotes c.id)
  serializeAutoSequence result .eventsAdded

/-- mergeAutoEventsRemoved: keep exactly the state events whose id does not
occur in changes, serialize as eventsAdded. -/
def mergeAutoEventsRemoved (state changes : SerializedData) : SerializedData :=
  let stateNotes := deserializeAutoEvents state
  let changesNotes := deserializeAutoEvents changes
  let result := stateNotes.filter fun s => !(hasId changesNotes s.id)
  serializeAutoSequence result .eventsAdded

/-- Array::removeAllInstancesOf for the value model: drop every occurrence. -/
def removeAll (l : List AutomationEvent) (x : AutomationEvent) : List AutomationEvent :=
  l.filter fun y => !(y == x)

/-- Array::addIfNotAlreadyThere for the value model. -/
def addIfNotAlreadyThere (l : List AutomationEvent) (x : AutomationEvent) : List AutomationEvent :=
  if x ∈ l then l else l ++ [x]

/-- One iteration of the mergeAutoEventsChanged loop: find the first changes
event with the state event's id; when found, remove the state event from the
result and append the changes event if absent. -/
def changedStep (changesNotes : List AutomationEvent)
    (res : List AutomationEvent) (s : AutomationEvent) : List AutomationEvent :=
  match changesNotes.find? (fun c => s.id == c.id) with
  | some c => addIfNotAlreadyThere (removeAll res s) c
  | none => res

/-- mergeAutoEventsChanged: start from all state events and, for every state
event whose id occurs in changes, replace it with the changes event;
serialize as eventsAdded. -/
def mergeAutoEventsChanged (state changes : SerializedData) : SerializedData :=
  let stateNotes := deserializeAutoEvents state
  let changesNotes := deserializeAutoEvents changes
  let result := stateNotes.foldl (changedStep changesNotes) stateNotes
  serializeAutoSequence result .eventsAdded

/-- The ids of a list of events do not repeat. -/
def UniqueIds (l : List AutomationEvent) : Prop :=
  (l.map fun e => e.id).Nodup

instance (l : List AutomationEvent) : Decidable (UniqueIds l) :=
  inferInstanceAs (Decidable (List.Nodup _))

/-- Delta: an immutable typed change record — type tag, human-readable
description, optional change count (DeltaDescription's intParameter). -/
structure Delta where
  type : DeltaType
  description : String
  changeCount : Option Int
  deriving DecidableEq, Repr

/-- DeltaDiff: one Delta paired with its serialized payload. -/
structure DeltaDiff where
  delta : Delta
  deltaData : SerializedData
  deriving DecidableEq, Repr

/-- TrackedItem snapshot: an ordered sequence of (Delta, payload) pairs as
exposed through getNumDeltas/getDelta/getDeltaData. -/
structure TrackedItem where
  deltas : List (Delta × SerializedData)
  deriving DecidableEq, Repr

/-- The field comparison of createAutoEventsDiffs: a same-id pair of events
counts as changed when beat, curvature, or controller value differ. -/
def eventHasChanged (s c : AutomationEvent) : Bool :=
  s.beat != c.beat || s.curvature != c.curvature || s.controllerValue != c.controllerValue

/-- serializeAutoTrackChanges: a DeltaDiff carrying the given description
and change count and the events serialized under the given delta type. -/
def serializeAutoTrackChanges (changes : List AutomationEvent)
    (description : String) (numChanges : Int) (deltaType : DeltaType) : DeltaDiff :=
  ⟨⟨deltaType, description, some numChanges⟩, serializeAutoSequence changes deltaType⟩

/-- createAutoEventsDiffs: compare the two deserialized sequences by id;
state events missing from changes are removed, same-id pairs with differing
fields contribute the changes-side event to changed, changes events missing
from state are added; emit one count-bearing DeltaDiff per non-empty group,
in added/removed/changed order. -/
def createAutoEventsDiffs (state changes : SerializedData) : List DeltaDiff :=
  let stateEvents := deserializeAutoEvents state
  let changesEvents := deserializeAutoEvents changes
  let changedEvents := stateEvents.filterMap fun se =>
    match changesEvents.find? (fun ce => se.id == ce.id) with
    | some ce => if eventHasChanged se ce then some ce else none
    | none => none
  let removedEvents := stateEvents.filter fun se => !(hasId changesEvents se.id)
  let addedEvents := changesEvents.filter fun ce => !(hasId stateEvents ce.id)
  (if 0 < addedEvents.length then
    [serializeAutoTrackChanges addedEvents "added {x} events" addedEvents.length .eventsAdded]
   else [])
  ++ (if 0 < removedEvents.length then
    [serializeAutoTrackChanges removedEvents "removed {x} events" removedEvents.length .eventsRemoved]
   else [])
  ++ (if 0 < changedEvents.length then
    [serializeAutoTrackChanges changedEvents "changed {x} events" changedEvents.length .eventsChanged]
   else [])

/-- createAutoTrackControllerDiff: a single DeltaDiff copying the changes
payload. -/
def createAutoTrackControllerDiff (state changes : SerializedData) : DeltaDiff :=
  ⟨⟨.trackController, "controller changed", none⟩, changes.createCopy⟩

/-- checkIfDeltaIsEventsType: is the delta one of the three events deltas. -/
def checkIfDeltaIsEventsType (d : Delta) : Prop :=
  d.type = .eventsAdded ∨ d.type = .eventsChanged ∨ d.type = .eventsRemoved

instance (d : Delta) : Decidable (checkIfDeltaIsEventsType d) := by
  unfold checkIfDeltaIsEventsType; infer_instance

/-- Does a clip sequence contain a clip with this id. -/
def hasClipId (l : List Clip) (i : String) : Bool :=
  l.any fun c => c.id == i

/-- Modelled from the spec: PatternDiffHelpers::checkIfDeltaIsPatternType is
declared in PatternDiffHelpers.h, which is not among the sources; the pattern
family consists of the three clips delta types. -/
def checkIfDeltaIsPatternType (d : Delta) : Prop :=
  d.type = .clipsAdded ∨ d.type = .clipsRemoved ∨ d.type = .clipsChanged

instance (d : Delta) : Decidable (checkIfDeltaIsPatternType d) := by
  unfold checkIfDeltaIsPatternType; infer_instance

/-- Modelled from the spec: PatternDiffHelpers::mergeClipsAdded is not among
the sources; clips are id-keyed records handled structurally like events
(§4.3): union biased toward state, re-serialized under the added tag. -/
def mergeClipsAdded (state changes : SerializedData) : SerializedData :=
  .tree .clipsAdded
    ((clipsOf state ++ (clipsOf changes).filter fun c => !(hasClipId (clipsOf state) c.id)).map .clip)

/-- Modelled from the spec: PatternDiffHelpers::mergeClipsRemoved is not
among the sources; keeps the state clips whose id does not occur in changes,
re-serialized under the added tag. -/
def mergeClipsRemoved (state changes : SerializedData) : SerializedData :=
  .tree .clipsAdded
    (((clipsOf state).filter fun s => !(hasClipId (clipsOf changes) s.id)).map .clip)

/-- Modelled from the spec: PatternDiffHelpers::mergeClipsChanged is not
among the sources; replaces every state clip whose id occurs in changes by
the changes clip, re-serialized under the added tag. -/
def mergeClipsChanged (state changes : SerializedData) : SerializedData :=
  .tree .clipsAdded
    (((clipsOf state).map fun s =>
      match (clipsOf changes).find? (fun c => s.id == c.id) with
      | some c => c
      | none => s).map .clip)

/-- Modelled from the spec: mergePath is defined in PianoTrackDiffLogic.cpp,
which is not among the sources; §4.2: a scalar merge returns a deep copy of
the changes payload unconditionally. -/
def mergePath (state changes : SerializedData) : SerializedData :=
  changes.createCopy

/-- Modelled from the spec: mergeColour is defined in PianoTrackDiffLogic.cpp,
which is not among the sources; §4.2: a scalar merge returns a deep copy of
the changes payload unconditionally. -/
def mergeColour (state changes : SerializedData) : SerializedData :=
  changes.createCopy

/-- Modelled from the spec: mergeInstrument is defined in
PianoTrackDiffLogic.cpp, which is not among the sources; §4.2: a scalar merge
returns a deep copy of the changes payload unconditionally. -/
def mergeInstrument (state changes : SerializedData) : SerializedData :=
  changes.createCopy

/-- Modelled from the spec: mergeTimeSignature is defined in
PianoTrackDiffLogic.cpp, which is not among the sources; §4.2 lists the
time-signature delta among the scalar last-write-wins types: the merge
returns a deep copy of the changes payload unconditionally. -/
def mergeTimeSignature (state changes : SerializedData) : SerializedData :=
  changes.createCopy

/-- mergeController (automation track-specific): a deep copy of changes. -/
def mergeController (state changes : SerializedData) : SerializedData :=
  changes.createCopy

/-- The loop state of createMergedItem's inner loop over target deltas:
whether a matching delta was found, the incrementally merged events and
clips payloads, and the DeltaDiffs emitted so far. -/
structure MergeAcc where
  found : Bool
  eventsData : SerializedData
  clipsData : SerializedData
  emitted : List DeltaDiff
  deriving DecidableEq, Repr

/-- The strictly-matching-type dispatch of createMergedItem: for each of the
five scalar delta types, emit one DeltaDiff whose delta copies the target
delta (same description and type) and whose payload is the type's merge of
(state payload, target payload); other strictly matching types emit
nothing. -/
def scalarMergeEmit (stateDeltaData : SerializedData)
    (targetDelta : Delta) (targetDeltaData : SerializedData) : List DeltaDiff :=
  if targetDelta.type = .trackPath then
    [⟨targetDelta, mergePath stateDeltaData targetDeltaData⟩]
  else if targetDelta.type = .trackColour then
    [⟨targetDelta, mergeColour stateDeltaData targetDeltaData⟩]
  else if targetDelta.type = .trackInstrument then
    [⟨targetDelta, mergeInstrument stateDeltaData targetDeltaData⟩]
  else if targetDelta.type = .trackController then
    [⟨targetDelta, mergeController stateDeltaData targetDeltaData⟩]
  else if targetDelta.type = .timeSignaturesChanged then
    [⟨targetDelta, mergeTimeSignature stateDeltaData targetDeltaData⟩]
  else []

/-- One step of createMergedItem's inner loop body for a fixed state delta:
the strict-type match, the events-family incremental merge, and the
pattern-family incremental merge, each setting the found flag. -/
def mergeStep (stateDelta : Delta) (stateDeltaData : SerializedData)
    (acc : MergeAcc) (t : Delta × SerializedData) : MergeAcc :=
  let targetDelta := t.1
  let targetDeltaData := t.2
  let acc1 :=
    if stateDelta.type = targetDelta.type then
      { acc with found := true,
                 emitted := acc.emitted ++ scalarMergeEmit stateDeltaData targetDelta targetDeltaData }
    else acc
  let acc2 :=
    if checkIfDeltaIsEventsType stateDelta ∧ checkIfDeltaIsEventsType targetDelta then
      let base := if acc1.eventsData.isValid then acc1.eventsData else stateDeltaData
      let newEventsData :=
        if targetDelta.type = .eventsAdded then mergeAutoEventsAdded base targetDeltaData
        else if targetDelta.type = .eventsRemoved then mergeAutoEventsRemoved base targetDeltaData
        else if targetDelta.type = .eventsChanged then mergeAutoEventsChanged base targetDeltaData
        else acc1.eventsData
      { acc1 with found := true, eventsData := newEventsData }
    else acc1
  if checkIfDeltaIsPatternType stateDelta ∧ checkIfDeltaIsPatternType targetDelta then
    let base := if acc2.clipsData.isValid then acc2.clipsData else stateDeltaData
    let newClipsData :=
      if targetDelta.type = .clipsAdded then mergeClipsAdded base targetDeltaData
      else if targetDelta.type = .clipsRemoved then mergeClipsRemoved base targetDeltaData
      else if targetDelta.type = .clipsChanged then mergeClipsChanged base targetDeltaData
      else acc2.clipsData
    { acc2 with found := true, clipsData := newClipsData }
  else acc2

/-- One iteration of createMergedItem's outer loop: run the inner loop over
all target deltas, then emit the consolidated events payload when valid, the
consolidated clips payload when valid, and the copy-forwarded state delta
when nothing in target matched. -/
def mergeIterOne (targetDeltas : List (Delta × SerializedData))
    (sd : Delta × SerializedData) : List DeltaDiff :=
  let acc := targetDeltas.foldl (mergeStep sd.1 sd.2) ⟨false, .invalid, .invalid, []⟩
  acc.emitted
    ++ (if acc.eventsData.isValid then
          [⟨⟨.eventsAdded, headStateDescription, none⟩, acc.eventsData⟩] else [])
    ++ (if acc.clipsData.isValid then
          [⟨⟨.clipsAdded, headStateDescription, none⟩, acc.clipsData⟩] else [])
    ++ (if acc.found then [] else [⟨sd.1, sd.2⟩])

/-- SerializedData(timeSignaturesChanged): the empty time-signature payload. -/
def emptyTimeSignaturesData : SerializedData :=
  .tree .timeSignaturesChanged []

/-- SerializedData(clipsAdded): the empty clips payload. -/
def emptyClipsData : SerializedData :=
  .tree .clipsAdded []

/-- Step 2 of createMergedItem for a state with no time-signature delta:
merge the empty base against every time-signature target delta (the last one
wins) and emit the result, or the empty payload when none is valid. -/
def mergedTimeSignaturePart (targetDeltas : List (Delta × SerializedData)) : List DeltaDiff :=
  let merged := targetDeltas.foldl
    (fun acc t =>
      if t.1.type = .timeSignaturesChanged then
        mergeTimeSignature emptyTimeSignaturesData t.2
      else acc)
    SerializedData.invalid
  if merged.isValid then
    [⟨⟨.timeSignaturesChanged, headStateDescription, none⟩, merged⟩]
  else
    [⟨⟨.timeSignaturesChanged, headStateDescription, none⟩, emptyTimeSignaturesData⟩]

/-- Step 2 of createMergedItem for a state with no pattern delta: merge the
empty clips base incrementally against every pattern-family target delta and
emit the result, or the empty payload when none is valid. -/
def mergedClipsPart (targetDeltas : List (Delta × SerializedData)) : List DeltaDiff :=
  let merged := targetDeltas.foldl
    (fun acc t =>
      if checkIfDeltaIsPatternType t.1 then
        let base := if acc.isValid then acc else emptyClipsData
        if t.1.type = .clipsAdded then mergeClipsAdded base t.2
        else if t.1.type = .clipsRemoved then mergeClipsRemoved base t.2
        else if t.1.type = .clipsChanged then mergeClipsChanged base t.2
        else acc
      else acc)
    SerializedData.invalid
  if merged.isValid then
    [⟨⟨.clipsAdded, headStateDescription, none⟩, merged⟩]
  else
    [⟨⟨.clipsAdded, headStateDescription, none⟩, emptyClipsData⟩]

/-- createMergedItem: the main pass walks the state deltas, merging against
all target deltas; then the forward-compatibility pass synthesizes the
time-signature and clips deltas for states that lack those families. -/
def createMergedItem (target initialState : TrackedItem) : List DeltaDiff :=
  (initialState.deltas.flatMap (mergeIterOne target.deltas))
    ++ (if ∃ sd ∈ initialState.deltas, sd.1.type = DeltaType.timeSignaturesChanged then []
        else mergedTimeSignaturePart target.deltas)
    ++ (if ∃ sd ∈ initialState.deltas, checkIfDeltaIsPatternType sd.1 then []
        else mergedClipsPart target.deltas)

/-- The DeltaDiffs of a Diff carrying a given delta type. -/
def diffsOfType (out : List DeltaDiff) (t : DeltaType) : List DeltaDiff :=
  out.filter fun d => d.delta.type == t

/-- The event records carried by the DeltaDiffs of a given delta type. -/
def eventsOfType (out : List DeltaDiff) (t : DeltaType) : List AutomationEvent :=
  (diffsOfType out t).flatMap fun d => eventsOf d.deltaData

/-- The number of DeltaDiffs in a Diff whose delta belongs to the events
family. -/
def countEventsFamily (out : List DeltaDiff) : Nat :=
  (out.filter fun d => decide (checkIfDeltaIsEventsType d.delta)).length

/-- The number of DeltaDiffs in a Diff whose delta belongs to the pattern
family. -/
def countPatternFamily (out : List DeltaDiff) : Nat :=
  (out.filter fun d => decide (checkIfDeltaIsPatternType d.delta)).length

/-- A sequence is sorted by beat when beats are pairwise non-decreasing. -/
def SortedByBeat (l : List AutomationEvent) : Prop :=
  l.Pairwise fun a b => a.beat ≤ b.beat

instance (l : List AutomationEvent) : Decidable (SortedByBeat l) :=
  inferInstanceAs (Decidable (List.Pairwise _ _))

theorem mem_insertByBeat (a e : AutomationEvent) (l : List AutomationEvent) :
    a ∈ insertByBeat e l ↔ a = e ∨ a ∈ l := by
  induction l with
  | nil => simp [insertByBeat]
  | cons x xs ih =>
    by_cases h : e.beat < x.beat
    · simp [insertByBeat, h]
    · simp [insertByBeat, h, ih]
      tauto

theorem insertByBeat_perm (e : AutomationEvent) (l : List AutomationEvent) :
    (insertByBeat e l).Perm (e :: l) := by
  induction l with
  | nil => simp [insertByBeat]
  | cons x xs ih =>
    by_cases h : e.beat < x.beat
    · simp [insertByBeat, h]
    · simp only [insertByBeat, if_neg h]
      exact (ih.cons x).trans (List.Perm.swap e x xs)

theorem foldl_insertByBeat_perm (l acc : List AutomationEvent) :
    (l.foldl (fun acc e => insertByBeat e acc) acc).Perm (acc ++ l) := by
  induction l generalizing acc with
  | nil => simp
  | cons x xs ih =>
    simp only [List.foldl_cons]
    refine (ih (insertByBeat x acc)).trans ?_
    have h1 : (insertByBeat x acc ++ xs).Perm ((x :: acc) ++ xs) :=
      (insertByBeat_perm x acc).append_right xs
    refine h1.trans ?_
    simpa using (@List.perm_middle _ x acc xs).symm

theorem sortEvents_perm (l : List AutomationEvent) : (sortEvents l).Perm l := by
  simpa [sortEvents] using foldl_insertByBeat_perm l []

theorem mem_sortEvents (a : AutomationEvent) (l : List AutomationEvent) :
    a ∈ sortEvents l ↔ a ∈ l :=
  (sortEvents_perm l).mem_iff

theorem insertByBeat_sorted (e : AutomationEvent) (l : List AutomationEvent)
    (h : SortedByBeat l) : SortedByBeat (insertByBeat e l) := by
  induction l with
  | nil => simp [insertByBeat, SortedByBeat]
  | cons x xs ih =>
    rcases h with _ | ⟨hx, hxs⟩
    by_cases hb : e.beat < x.beat
    · simp only [insertByBeat, if_pos hb]
      refine List.Pairwise.cons ?_ (List.Pairwise.cons hx hxs)
      intro y hy
      rcases List.mem_cons.mp hy with rfl | hy
      · exact le_of_lt hb
      · exact le_trans (le_of_lt hb) (hx y hy)
    · simp only [insertByBeat, if_neg hb]
      refine List.Pairwise.cons ?_ (ih hxs)
      intro y hy
      rcases (mem_insertByBeat y e xs).mp hy with rfl | hy
      · exact le_of_not_lt hb
      · exact hx y hy

theorem sortEvents_sorted (l : List AutomationEvent) : SortedByBeat (sortEvents l) := by
  suffices h : ∀ acc, SortedByBeat acc →
      SortedByBeat (l.foldl (fun acc e => insertByBeat e acc) acc) from
    h [] (by simp [SortedByBeat])
  induction l with
  | nil => intro acc hacc; simpa using hacc
  | cons x xs ih =>
    intro acc hacc
    simpa using ih (insertByBeat x acc) (insertByBeat_sorted x acc hacc)

theorem insertByBeat_append (e : AutomationEvent) (l : List AutomationEvent)
    (h : ∀ a ∈ l, a.beat ≤ e.beat) : insertByBeat e l = l ++ [e] := by
  induction l with
  | nil => simp [insertByBeat]
  | cons x xs ih =>
    have hx : ¬ e.beat < x.beat := not_lt.mpr (h x (by simp))
    simp only [insertByBeat, if_neg hx, List.cons_append, List.cons.injEq, true_and]
    exact ih fun a ha => h a (by simp [ha])

theorem sortEvents_of_sorted (l : List AutomationEvent) (h : SortedByBeat l) :
    sortEvents l = l := by
  suffices key : ∀ t acc, SortedByBeat (acc ++ t) →
      (t.foldl (fun acc e => insertByBeat e acc) acc) = acc ++ t by
    simpa [sortEvents] using key l [] (by simpa using h)
  intro t
  induction t with
  | nil => intro acc _; simp
  | cons x xs ih =>
    intro acc hacc
    have hle : ∀ a ∈ acc, a.beat ≤ x.beat := by
      intro a ha
      have := (List.pairwise_append.mp hacc).2.2
      exact this a ha x (by simp)
    have hstep : insertByBeat x acc = acc ++ [x] := insertByBeat_append x acc hle
    have hacc2 : SortedByBeat ((acc ++ [x]) ++ xs) := by
      simpa using hacc
    simp only [List.foldl_cons, hstep]
    rw [ih (acc ++ [x]) hacc2]
    simp

theorem sortEvents_idem (l : List AutomationEvent) :
    sortEvents (sortEvents l) = sortEvents l :=
  sortEvents_of_sorted (sortEvents l) (sortEvents_sorted l)

theorem hasId_iff (l : List AutomationEvent) (i : String) :
    hasId l i = true ↔ ∃ e ∈ l, e.id = i := by
  simp [hasId]

theorem hasId_sortEvents (l : List AutomationEvent) (i : String) :
    hasId (sortEvents l) i = hasId l i := by
  by_cases h : hasId l i = true
  · rw [h]
    rw [hasId_iff] at h ⊢
    obtain ⟨e, he, hei⟩ := h
    exact ⟨e, (mem_sortEvents e l).mpr he, hei⟩
  · rw [Bool.not_eq_true] at h
    rw [h, ← Bool.not_eq_true, hasId_iff]
    rw [← Bool.not_eq_true, hasId_iff] at h
    push_neg at h ⊢
    intro e he
    exact h e ((mem_sortEvents e l).mp he)

theorem eventsOf_serializeAutoSequence (evs : List AutomationEvent) (tag : DeltaType) :
    eventsOf (serializeAutoSequence evs tag) = evs := by
  induction evs with
  | nil => rfl
  | cons e t ih =>
    simpa [eventsOf, serializeAutoSequence, List.filterMap_cons] using
      congrArg (List.cons e) (by simpa [eventsOf, serializeAutoSequence] using ih)

theorem eventsOf_mergeAutoEventsAdded (s c : SerializedData) :
    eventsOf (mergeAutoEventsAdded s c) =
      sortEvents (eventsOf s)
        ++ (sortEvents (eventsOf c)).filter fun e => !(hasId (sortEvents (eventsOf s)) e.id) := by
  simp [mergeAutoEventsAdded, deserializeAutoEvents, eventsOf_serializeAutoSequence]

theorem eventsOf_mergeAutoEventsRemoved (s c : SerializedData) :
    eventsOf (mergeAutoEventsRemoved s c) =
      (sortEvents (eventsOf s)).filter fun e => !(hasId (sortEvents (eventsOf c)) e.id) := by
  simp [mergeAutoEventsRemoved, deserializeAutoEvents, eventsOf_serializeAutoSequence]

/-- C1: the added-merge keeps all of state's records and appends exactly the
changes records whose id is absent from state (so colliding ids keep the
state copy), and the result is serialized as a single eventsAdded-tagged
payload.  The record content is stated up to permutation of the sequence. -/
theorem mergeAutoEventsAdded_is_biased_union (s c : SerializedData)
    (hs : UniqueIds (eventsOf s)) (hc : UniqueIds (eventsOf c)) :
    (mergeAutoEventsAdded s c).tagOf = some DeltaType.eventsAdded ∧
    (eventsOf (mergeAutoEventsAdded s c)).Perm
      (eventsOf s ++ (eventsOf c).filter fun e => !(hasId (eventsOf s) e.id)) := by
  refine ⟨rfl, ?_⟩
  rw [eventsOf_mergeAutoEventsAdded]
  have hfil : ((sortEvents (eventsOf c)).filter fun e => !(hasId (sortEvents (eventsOf s)) e.id))
      = (sortEvents (eventsOf c)).filter fun e => !(hasId (eventsOf s) e.id) :=
    List.filter_congr fun e _ => by rw [hasId_sortEvents]
  rw [hfil]
  exact (sortEvents_perm (eventsOf s)).append ((sortEvents_perm (eventsOf c)).filter _)

/-- Witness for C1 at state events [id 1 at beat 0] and changes events
[id 1 at beat 5, id 2 at beat 1]. -/
theorem mergeAutoEventsAdded_is_biased_union_witness :
    UniqueIds (eventsOf (.tree .eventsAdded [.event ⟨"1", 0, 0, 0⟩])) ∧
    UniqueIds (eventsOf (.tree .eventsAdded [.event ⟨"1", 5, 0, 0⟩, .event ⟨"2", 1, 0, 0⟩])) ∧
    ((mergeAutoEventsAdded (.tree .eventsAdded [.event ⟨"1", 0, 0, 0⟩])
        (.tree .eventsAdded [.event ⟨"1", 5, 0, 0⟩, .event ⟨"2", 1, 0, 0⟩])).tagOf
        = some DeltaType.eventsAdded ∧
     (eventsOf (mergeAutoEventsAdded (.tree .eventsAdded [.event ⟨"1", 0, 0, 0⟩])
        (.tree .eventsAdded [.event ⟨"1", 5, 0, 0⟩, .event ⟨"2", 1, 0, 0⟩]))).Perm
       (eventsOf (.tree .eventsAdded [.event ⟨"1", 0, 0, 0⟩])
         ++ (eventsOf (.tree .eventsAdded [.event ⟨"1", 5, 0, 0⟩, .event ⟨"2", 1, 0, 0⟩])).filter
              fun e => !(hasId (eventsOf (.tree .eventsAdded [.event ⟨"1", 0, 0, 0⟩])) e.id))) :=
  ⟨by decide, by decide,
   mergeAutoEventsAdded_is_biased_union _ _ (by decide) (by decide)⟩

/-- C9 counterexample: for state [id 1 at beat 10] and changes [id 2 at
beat 0] (both with unique ids), merging the changes in twice does not return
the same payload as merging once — the second merge re-sorts the children by
beat, so the child order differs. -/
theorem mergeAutoEventsAdded_not_idempotent :
    UniqueIds (eventsOf (.tree .eventsAdded [.event ⟨"1", 10, 0, 0⟩])) ∧
    UniqueIds (eventsOf (.tree .eventsAdded [.event ⟨"2", 0, 0, 0⟩])) ∧
    mergeAutoEventsAdded
        (mergeAutoEventsAdded (.tree .eventsAdded [.event ⟨"1", 10, 0, 0⟩])
          (.tree .eventsAdded [.event ⟨"2", 0, 0, 0⟩]))
        (.tree .eventsAdded [.event ⟨"2", 0, 0, 0⟩])
      ≠ mergeAutoEventsAdded (.tree .eventsAdded [.event ⟨"1", 10, 0, 0⟩])
          (.tree .eventsAdded [.event ⟨"2", 0, 0, 0⟩]) := by
  refine ⟨by decide, by decide, by decide⟩

/-- C9 (amended): the added-merge is idempotent per id up to child order —
merging the same changes twice yields a payload with the same tag whose
event sequence is the same up to beat-sorting (it is in fact the beat-sorted
version of the once-merged sequence). -/
theorem mergeAutoEventsAdded_idempotent_upto_sorting (s c : SerializedData) :
    (mergeAutoEventsAdded (mergeAutoEventsAdded s c) c).tagOf
      = (mergeAutoEventsAdded s c).tagOf ∧
    sortEvents (eventsOf (mergeAutoEventsAdded (mergeAutoEventsAdded s c) c))
      = sortEvents (eventsOf (mergeAutoEventsAdded s c)) := by
  refine ⟨rfl, ?_⟩
  rw [eventsOf_mergeAutoEventsAdded (mergeAutoEventsAdded s c) c]
  have hnil : ((sortEvents (eventsOf c)).filter
      fun e => !(hasId (sortEvents (eventsOf (mergeAutoEventsAdded s c))) e.id)) = [] := by
    rw [List.filter_eq_nil_iff]
    intro e he
    have hmem : hasId (eventsOf (mergeAutoEventsAdded s c)) e.id = true := by
      rw [hasId_iff, eventsOf_mergeAutoEventsAdded]
      by_cases hin : hasId (sortEvents (eventsOf s)) e.id = true
      · rw [hasId_iff] at hin
        obtain ⟨x, hx, hxi⟩ := hin
        exact ⟨x, List.mem_append_left _ hx, hxi⟩
      · refine ⟨e, List.mem_append_right _ ?_, rfl⟩
        rw [List.mem_filter]
        exact ⟨he, by simp [Bool.not_eq_true] at hin ⊢; exact hin⟩
    rw [hasId_sortEvents, hmem]
    simp
  rw [hnil, List.append_nil, sortEvents_of_sorted _ (sortEvents_sorted _)]

theorem eventsOfType_diffs_added (s c : SerializedData) :
    eventsOfType (createAutoEventsDiffs s c) .eventsAdded
      = (deserializeAutoEvents c).filter fun ce => !(hasId (deserializeAutoEvents s) ce.id) := by
  simp only [createAutoEventsDiffs, eventsOfType, diffsOfType, List.filter_append]
  rcases eq_or_ne ((deserializeAutoEvents c).filter
      fun ce => !(hasId (deserializeAutoEvents s) ce.id)) [] with hA | hA <;>
    rcases eq_or_ne ((deserializeAutoEvents s).filter
      fun se => !(hasId (deserializeAutoEvents c) se.id)) [] with hR | hR <;>
    rcases eq_or_ne ((deserializeAutoEvents s).filterMap fun se =>
      match (deserializeAutoEvents c).find? (fun ce => se.id == ce.id) with
      | some ce => if eventHasChanged se ce then some ce else none
      | none => none) [] with hC | hC <;>
    simp [hA, hR, hC, List.length_pos, serializeAutoTrackChanges,
      eventsOf_serializeAutoSequence]

theorem eventsOfType_diffs_removed (s c : SerializedData) :
    eventsOfType (createAutoEventsDiffs s c) .eventsRemoved
      = (deserializeAutoEvents s).filter fun se => !(hasId (deserializeAutoEvents c) se.id) := by
  simp only [createAutoEventsDiffs, eventsOfType, diffsOfType, List.filter_append]
  rcases eq_or_ne ((deserializeAutoEvents c).filter
      fun ce => !(hasId (deserializeAutoEvents s) ce.id)) [] with hA | hA <;>
    rcases eq_or_ne ((deserializeAutoEvents s).filter
      fun se => !(hasId (deserializeAutoEvents c) se.id)) [] with hR | hR <;>
    rcases eq_or_ne ((deserializeAutoEvents s).filterMap fun se =>
      match (deserializeAutoEvents c).find? (fun ce => se.id == ce.id) with
      | some ce => if eventHasChanged se ce then some ce else none
      | none => none) [] with hC | hC <;>
    simp [hA, hR, hC, List.length_pos, serializeAutoTrackChanges,
      eventsOf_serializeAutoSequence]

theorem eventsOfType_diffs_changed (s c : SerializedData) :
    eventsOfType (createAutoEventsDiffs s c) .eventsChanged
      = (deserializeAutoEvents s).filterMap fun se =>
          match (deserializeAutoEvents c).find? (fun ce => se.id == ce.id) with
          | some ce => if eventHasChanged se ce then some ce else none
          | none => none := by
  simp only [createAutoEventsDiffs, eventsOfType, diffsOfType, List.filter_append]
  rcases eq_or_ne ((deserializeAutoEvents c).filter
      fun ce => !(hasId (deserializeAutoEvents s) ce.id)) [] with hA | hA <;>
    rcases eq_or_ne ((deserializeAutoEvents s).filter
      fun se => !(hasId (deserializeAutoEvents c) se.id)) [] with hR | hR <;>
    rcases eq_or_ne ((deserializeAutoEvents s).filterMap fun se =>
      match (deserializeAutoEvents c).find? (fun ce => se.id == ce.id) with
      | some ce => if eventHasChanged se ce then some ce else none
      | none => none) [] with hC | hC <;>
    simp [hA, hR, hC, List.length_pos, serializeAutoTrackChanges,
      eventsOf_serializeAutoSequence]

/-- C8 (amended): the deserialized input sequences are sorted by beat, and
the payloads produced by mergeAutoEventsRemoved and by the added/removed
groups of createAutoEventsDiffs (each a filter of a sorted sequence) list
their events sorted by beat; the payloads of mergeAutoEventsAdded,
mergeAutoEventsChanged and the changed group append changes-side records to
the sorted state events and need not be globally sorted by beat. -/
theorem sortedness_of_diff_and_removed_merge_payloads (s c : SerializedData) :
    SortedByBeat (deserializeAutoEvents s) ∧
    SortedByBeat (eventsOf (mergeAutoEventsRemoved s c)) ∧
    SortedByBeat (eventsOfType (createAutoEventsDiffs s c) .eventsAdded) ∧
    SortedByBeat (eventsOfType (createAutoEventsDiffs s c) .eventsRemoved) := by
  refine ⟨sortEvents_sorted _, ?_, ?_, ?_⟩
  · rw [eventsOf_mergeAutoEventsRemoved]
    exact List.Pairwise.sublist (List.filter_sublist _) (sortEvents_sorted _)
  · rw [eventsOfType_diffs_added]
    exact List.Pairwise.sublist (List.filter_sublist _) (sortEvents_sorted _)
  · rw [eventsOfType_diffs_removed]
    exact List.Pairwise.sublist (List.filter_sublist _) (sortEvents_sorted _)

/-- C8 counterexample: for state [id 1 at beat 10] and changes [id 2 at
beat 0], mergeAutoEventsAdded emits the payload [beat 10, beat 0], which is
not sorted by beat. -/
theorem mergeAutoEventsAdded_payload_not_sorted :
    ¬ SortedByBeat (eventsOf (mergeAutoEventsAdded
        (.tree .eventsAdded [.event ⟨"1", 10, 0, 0⟩])
        (.tree .eventsAdded [.event ⟨"2", 0, 0, 0⟩]))) := by
  decide

theorem removeAll_append (a b : List AutomationEvent) (x : AutomationEvent) :
    removeAll (a ++ b) x = removeAll a x ++ removeAll b x := by
  simp [removeAll, List.filter_append]

theorem removeAll_of_not_mem (l : List AutomationEvent) (x : AutomationEvent)
    (hx : x ∉ l) : removeAll l x = l := by
  rw [removeAll, List.filter_eq_self]
  intro a ha
  simp only [Bool.not_eq_eq_eq_not, Bool.not_true, beq_eq_false_iff_ne, ne_eq]
  rintro rfl
  exact hx ha

theorem removeAll_cons_self (l : List AutomationEvent) (x : AutomationEvent) :
    removeAll (x :: l) x = removeAll l x := by
  simp [removeAll]

theorem addIfNotAlreadyThere_of_not_mem (l : List AutomationEvent) (x : AutomationEvent)
    (hx : x ∉ l) : addIfNotAlreadyThere l x = l ++ [x] := by
  rw [addIfNotAlreadyThere, if_neg hx]

theorem uniqueIds_not_mem_map (p : List AutomationEvent) (t : List AutomationEvent)
    (s : AutomationEvent) (hp : UniqueIds (p ++ s :: t)) :
    (∀ x ∈ p, x.id ≠ s.id) ∧ (∀ x ∈ t, x.id ≠ s.id) := by
  unfold UniqueIds at hp
  rw [List.map_append, List.nodup_append] at hp
  obtain ⟨_, hst, hdisj⟩ := hp
  constructor
  · intro x hx hxe
    exact hdisj (a := x.id) (List.mem_map_of_mem _ hx) (by simp [hxe])
  · intro x hx hxe
    rw [List.map_cons, List.nodup_cons] at hst
    exact hst.1 (hxe ▸ List.mem_map_of_mem _ hx)

theorem filterMap_find_id_mem (C p : List AutomationEvent) (x : AutomationEvent)
    (hx : x ∈ p.filterMap fun s => C.find? fun c => s.id == c.id) :
    ∃ a ∈ p, a.id = x.id ∧ x ∈ C := by
  rw [List.mem_filterMap] at hx
  obtain ⟨a, ha, hfind⟩ := hx
  have hid := List.find?_some hfind
  refine ⟨a, ha, ?_, List.mem_of_find?_eq_some hfind⟩
  simpa using hid

theorem changedFold_characterization (C : List AutomationEvent) (t : List AutomationEvent) :
    ∀ p : List AutomationEvent, UniqueIds (p ++ t) →
      t.foldl (changedStep C)
        ((p.filter fun s => (C.find? fun c => s.id == c.id).isNone) ++ t
          ++ (p.filterMap fun s => C.find? fun c => s.id == c.id))
      = ((p ++ t).filter fun s => (C.find? fun c => s.id == c.id).isNone)
          ++ ((p ++ t).filterMap fun s => C.find? fun c => s.id == c.id) := by
  induction t with
  | nil =>
    intro p hp
    simp
  | cons s t ih =>
    intro p hp
    have hids := uniqueIds_not_mem_map p t s hp
    have hsp : s ∉ p := fun h => hids.1 s h rfl
    have hst : s ∉ t := fun h => hids.2 s h rfl
    have hforward : UniqueIds ((p ++ [s]) ++ t) := by
      unfold UniqueIds at hp ⊢
      simpa using hp
    simp only [List.foldl_cons]
    cases hfind : C.find? fun c => s.id == c.id with
    | none =>
      have hstep : changedStep C
          ((p.filter fun a => (C.find? fun c => a.id == c.id).isNone) ++ (s :: t)
            ++ (p.filterMap fun a => C.find? fun c => a.id == c.id)) s
          = ((p ++ [s]).filter fun a => (C.find? fun c => a.id == c.id).isNone) ++ t
            ++ ((p ++ [s]).filterMap fun a => C.find? fun c => a.id == c.id) := by
        simp only [changedStep, hfind]
        have hfil : (List.filter (fun a : AutomationEvent =>
            (C.find? fun c => a.id == c.id).isNone) [s]) = [s] := by
          simp [hfind]
        have hfm : (List.filterMap (fun a : AutomationEvent =>
            C.find? fun c => a.id == c.id) [s]) = [] := by
          simp [hfind]
        rw [List.filter_append, List.filterMap_append, hfil, hfm]
        simp
      have hrearrange : (p ++ [s]) ++ t = p ++ s :: t := by simp
      rw [hstep, ih (p ++ [s]) hforward, hrearrange]
    | some cEv =>
      have hcid : cEv.id = s.id := by
        have h2 := List.find?_some hfind
        simp only [beq_iff_eq] at h2
        exact h2.symm
      have hcC : cEv ∈ C := List.mem_of_find?_eq_some hfind
      have hsnotfil : s ∉ p.filter fun a => (C.find? fun c => a.id == c.id).isNone :=
        fun h => hsp (List.mem_of_mem_filter h)
      have hsnotfm : s ∉ p.filterMap fun a => C.find? fun c => a.id == c.id := by
        intro h
        obtain ⟨a, ha, haid, _⟩ := filterMap_find_id_mem C p s h
        exact hids.1 a ha haid
      have hcnotfil : cEv ∉ p.filter fun a => (C.find? fun c => a.id == c.id).isNone := by
        intro h
        exact hids.1 cEv (List.mem_of_mem_filter h) hcid
      have hcnott : cEv ∉ t := fun h => hids.2 cEv h hcid
      have hcnotfm : cEv ∉ p.filterMap fun a => C.find? fun c => a.id == c.id := by
        intro h
        obtain ⟨a, ha, haid, _⟩ := filterMap_find_id_mem C p cEv h
        exact hids.1 a ha (haid.trans hcid)
      have hstep : changedStep C
          ((p.filter fun a => (C.find? fun c => a.id == c.id).isNone) ++ (s :: t)
            ++ (p.filterMap fun a => C.find? fun c => a.id == c.id)) s
          = ((p ++ [s]).filter fun a => (C.find? fun c => a.id == c.id).isNone) ++ t
            ++ ((p ++ [s]).filterMap fun a => C.find? fun c => a.id == c.id) := by
        simp only [changedStep, hfind]
        rw [removeAll_append, removeAll_append]
        rw [removeAll_of_not_mem _ _ hsnotfil, removeAll_cons_self,
          removeAll_of_not_mem _ _ hst, removeAll_of_not_mem _ _ hsnotfm]
        rw [addIfNotAlreadyThere_of_not_mem]
        · have hfil : (List.filter (fun a : AutomationEvent =>
              (C.find? fun c => a.id == c.id).isNone) [s]) = [] := by
            simp [hfind]
          have hfm : (List.filterMap (fun a : AutomationEvent =>
              C.find? fun c => a.id == c.id) [s]) = [cEv] := by
            simp [hfind]
          rw [List.filter_append, List.filterMap_append, hfil, hfm]
          simp
        · intro h
          rcases List.mem_append.mp h with h1 | h2
          · rcases List.mem_append.mp h1 with h3 | h4
            · exact hcnotfil h3
            · exact hcnott h4
          · exact hcnotfm h2
      have hrearrange : (p ++ [s]) ++ t = p ++ s :: t := by simp
      rw [hstep, ih (p ++ [s]) hforward, hrearrange]

theorem uniqueIds_sortEvents (l : List AutomationEvent) :
    UniqueIds (sortEvents l) ↔ UniqueIds l := by
  unfold UniqueIds
  exact ((sortEvents_perm l).map fun e => e.id).nodup_iff

theorem find?_eq_some_of_uniqueIds (C : List AutomationEvent) (x : AutomationEvent)
    (hC : UniqueIds C) (hx : x ∈ C) (i : String) (hi : x.id = i) :
    (C.find? fun c => i == c.id) = some x := by
  induction C with
  | nil => cases hx
  | cons b t ih =>
    have hC2 : b.id ∉ t.map (fun e => e.id) ∧ UniqueIds t := by
      unfold UniqueIds at hC
      rw [List.map_cons, List.nodup_cons] at hC
      exact hC
    by_cases hb : i = b.id
    · have hxb : x = b := by
        rcases List.mem_cons.mp hx with rfl | hxt
        · rfl
        · exfalso
          apply hC2.1
          rw [← (hi.trans hb)]
          exact List.mem_map_of_mem (fun e => e.id) hxt
      subst hxb
      rw [List.find?_cons_of_pos]
      simp [hb]
    · have hxt : x ∈ t := by
        rcases List.mem_cons.mp hx with rfl | hxt
        · exact absurd hi.symm hb
        · exact hxt
      rw [List.find?_cons_of_neg]
      · exact ih hC2.2 hxt
      · simp [hb]

theorem uniqueIds_filterMap_find (L C : List AutomationEvent) (hL : UniqueIds L) :
    UniqueIds (L.filterMap fun a => C.find? fun c => a.id == c.id) := by
  induction L with
  | nil => simp [UniqueIds]
  | cons a t ih =>
    have hL2 : a.id ∉ t.map (fun e => e.id) ∧ UniqueIds t := by
      unfold UniqueIds at hL
      rw [List.map_cons, List.nodup_cons] at hL
      exact hL
    cases hfind : C.find? fun c => a.id == c.id with
    | none =>
      rw [List.filterMap_cons_none
        (f := fun a : AutomationEvent => C.find? fun c => a.id == c.id) hfind]
      exact ih hL2.2
    | some x =>
      have hxid : x.id = a.id := by
        have h2 := List.find?_some hfind
        simp only [beq_iff_eq] at h2
        exact h2.symm
      rw [List.filterMap_cons_some
        (f := fun a : AutomationEvent => C.find? fun c => a.id == c.id) hfind]
      unfold UniqueIds
      rw [List.map_cons, List.nodup_cons]
      refine ⟨?_, ih hL2.2⟩
      intro hmem
      obtain ⟨y, hy, hyid⟩ := List.mem_map.mp hmem
      obtain ⟨b, hb, hbid, _⟩ := filterMap_find_id_mem C t y hy
      apply hL2.1
      have hab : a.id = b.id := by rw [hbid, hyid, hxid]
      rw [hab]
      exact List.mem_map_of_mem (fun e => e.id) hb

theorem mem_filterMap_find_iff (L C : List AutomationEvent) (hC : UniqueIds C)
    (x : AutomationEvent) :
    (x ∈ L.filterMap fun a => C.find? fun c => a.id == c.id)
      ↔ (x ∈ C ∧ ∃ a ∈ L, a.id = x.id) := by
  constructor
  · intro h
    obtain ⟨a, ha, haid, hxC⟩ := filterMap_find_id_mem C L x h
    exact ⟨hxC, a, ha, haid⟩
  · rintro ⟨hxC, a, ha, haid⟩
    rw [List.mem_filterMap]
    exact ⟨a, ha, find?_eq_some_of_uniqueIds C x hC hxC a.id haid.symm⟩

theorem find?_isNone_eq_not_hasId (C : List AutomationEvent) (i : String) :
    (C.find? fun c => i == c.id).isNone = !(hasId C i) := by
  induction C with
  | nil => simp [hasId]
  | cons b t ih =>
    by_cases hb : i = b.id
    · rw [List.find?_cons_of_pos]
      · simp [hasId, hb]
      · simp [hb]
    · rw [List.find?_cons_of_neg]
      · rw [ih]
        have : hasId (b :: t) i = hasId t i := by
          simp only [hasId, List.any_cons]
          have : (b.id == i) = false := by
            simp only [beq_eq_false_iff_ne, ne_eq]
            exact fun h => hb h.symm
          rw [this, Bool.false_or]
        rw [this]
      · simp [hb]

theorem eventsOf_mergeAutoEventsChanged (s c : SerializedData)
    (h : UniqueIds (deserializeAutoEvents s)) :
    eventsOf (mergeAutoEventsChanged s c)
      = ((deserializeAutoEvents s).filter fun a =>
          ((deserializeAutoEvents c).find? fun cc => a.id == cc.id).isNone)
        ++ ((deserializeAutoEvents s).filterMap fun a =>
          (deserializeAutoEvents c).find? fun cc => a.id == cc.id) := by
  have key := changedFold_characterization (deserializeAutoEvents c)
    (deserializeAutoEvents s) [] (by simpa using h)
  simp only [List.filter_nil, List.filterMap_nil, List.nil_append, List.append_nil] at key
  simpa [mergeAutoEventsChanged, eventsOf_serializeAutoSequence] using key

/-- C2: the changed-merge keeps every state record whose id is absent from
changes unchanged, replaces every state record whose id occurs in changes by
the changes record with that id, silently ignores changes records whose id
occurs nowhere in state, and serializes the result as one eventsAdded-tagged
payload.  The record content is stated up to permutation of the sequence. -/
theorem mergeAutoEventsChanged_replaces_by_id (s c : SerializedData)
    (hs : UniqueIds (eventsOf s)) (hc : UniqueIds (eventsOf c)) :
    (mergeAutoEventsChanged s c).tagOf = some DeltaType.eventsAdded ∧
    (eventsOf (mergeAutoEventsChanged s c)).Perm
      (((eventsOf s).filter fun e => !(hasId (eventsOf c) e.id))
        ++ ((eventsOf c).filter fun e => hasId (eventsOf s) e.id)) := by
  refine ⟨rfl, ?_⟩
  have hLu : UniqueIds (deserializeAutoEvents s) := (uniqueIds_sortEvents _).mpr hs
  have hCu : UniqueIds (deserializeAutoEvents c) := (uniqueIds_sortEvents _).mpr hc
  rw [eventsOf_mergeAutoEventsChanged s c hLu]
  refine List.Perm.append ?_ ?_
  · have hpred : ∀ a ∈ deserializeAutoEvents s,
        ((deserializeAutoEvents c).find? fun cc => a.id == cc.id).isNone
          = !(hasId (eventsOf c) a.id) := by
      intro a _
      rw [find?_isNone_eq_not_hasId]
      rw [show hasId (deserializeAutoEvents c) a.id = hasId (eventsOf c) a.id from
        hasId_sortEvents _ _]
    rw [List.filter_congr hpred]
    exact (sortEvents_perm (eventsOf s)).filter _
  · have hnd1 : (List.filterMap (fun a =>
        (deserializeAutoEvents c).find? fun cc => a.id == cc.id)
        (deserializeAutoEvents s)).Nodup :=
      List.Nodup.of_map _
        (uniqueIds_filterMap_find (deserializeAutoEvents s) (deserializeAutoEvents c) hLu)
    have hnd2 : ((eventsOf c).filter fun e => hasId (eventsOf s) e.id).Nodup :=
      List.Nodup.filter _ (List.Nodup.of_map _ hc)
    rw [List.perm_ext_iff_of_nodup hnd1 hnd2]
    intro x
    rw [mem_filterMap_find_iff _ _ hCu]
    constructor
    · rintro ⟨hxC, a, ha, haid⟩
      rw [List.mem_filter]
      refine ⟨(mem_sortEvents x _).mp hxC, ?_⟩
      rw [hasId_iff]
      exact ⟨a, (mem_sortEvents a _).mp ha, haid⟩
    · intro hx
      rw [List.mem_filter] at hx
      obtain ⟨hxc, hhas⟩ := hx
      rw [hasId_iff] at hhas
      obtain ⟨a, ha, haid⟩ := hhas
      exact ⟨(mem_sortEvents x _).mpr hxc, a, (mem_sortEvents a _).mpr ha, haid⟩

/-- Witness for C2 at state events [id 1 at beat 0, id 2 at beat 1] and
changes events [id 2 at beat 2, id 3 at beat 3]. -/
theorem mergeAutoEventsChanged_replaces_by_id_witness :
    UniqueIds (eventsOf (.tree .eventsAdded
      [.event ⟨"1", 0, 0, 0⟩, .event ⟨"2", 1, 0, 0⟩])) ∧
    UniqueIds (eventsOf (.tree .eventsChanged
      [.event ⟨"2", 2, 0, 0⟩, .event ⟨"3", 3, 0, 0⟩])) ∧
    ((mergeAutoEventsChanged
        (.tree .eventsAdded [.event ⟨"1", 0, 0, 0⟩, .event ⟨"2", 1, 0, 0⟩])
        (.tree .eventsChanged [.event ⟨"2", 2, 0, 0⟩, .event ⟨"3", 3, 0, 0⟩])).tagOf
        = some DeltaType.eventsAdded ∧
     (eventsOf (mergeAutoEventsChanged
        (.tree .eventsAdded [.event ⟨"1", 0, 0, 0⟩, .event ⟨"2", 1, 0, 0⟩])
        (.tree .eventsChanged [.event ⟨"2", 2, 0, 0⟩, .event ⟨"3", 3, 0, 0⟩]))).Perm
       (((eventsOf (.tree .eventsAdded
            [.event ⟨"1", 0, 0, 0⟩, .event ⟨"2", 1, 0, 0⟩])).filter fun e =>
              !(hasId (eventsOf (.tree .eventsChanged
                [.event ⟨"2", 2, 0, 0⟩, .event ⟨"3", 3, 0, 0⟩])) e.id))
         ++ ((eventsOf (.tree .eventsChanged
            [.event ⟨"2", 2, 0, 0⟩, .event ⟨"3", 3, 0, 0⟩])).filter fun e =>
              hasId (eventsOf (.tree .eventsAdded
                [.event ⟨"1", 0, 0, 0⟩, .event ⟨"2", 1, 0, 0⟩])) e.id))) :=
  ⟨by decide, by decide,
   mergeAutoEventsChanged_replaces_by_id _ _ (by decide) (by decide)⟩

theorem hasId_eq_false_iff (l : List AutomationEvent) (i : String) :
    hasId l i = false ↔ ∀ e ∈ l, e.id ≠ i := by
  constructor
  · intro h e he hei
    have h2 : hasId l i = true := (hasId_iff l i).mpr ⟨e, he, hei⟩
    rw [h] at h2
    cases h2
  · intro h
    cases hh : hasId l i
    · rfl
    · obtain ⟨e, he, hei⟩ := (hasId_iff l i).mp hh
      exact absurd hei (h e he)

theorem eventHasChanged_iff (a b : AutomationEvent) :
    eventHasChanged a b = true
      ↔ (a.beat ≠ b.beat ∨ a.curvature ≠ b.curvature
          ∨ a.controllerValue ≠ b.controllerValue) := by
  simp only [eventHasChanged, Bool.or_eq_true, bne_iff_ne, ne_eq]
  tauto

theorem mem_removed_group_iff (s c : SerializedData) (e : AutomationEvent) :
    e ∈ eventsOfType (createAutoEventsDiffs s c) .eventsRemoved
      ↔ (e ∈ eventsOf s ∧ ∀ ce ∈ eventsOf c, ce.id ≠ e.id) := by
  rw [eventsOfType_diffs_removed, List.mem_filter]
  have h1 : (e ∈ deserializeAutoEvents s) ↔ e ∈ eventsOf s := mem_sortEvents e _
  have h2 : (!(hasId (deserializeAutoEvents c) e.id)) = true
      ↔ ∀ ce ∈ eventsOf c, ce.id ≠ e.id := by
    rw [Bool.not_eq_true']
    rw [show hasId (deserializeAutoEvents c) e.id = hasId (eventsOf c) e.id from
      hasId_sortEvents _ _]
    exact hasId_eq_false_iff _ _
  rw [h1, h2]

theorem mem_added_group_iff (s c : SerializedData) (e : AutomationEvent) :
    e ∈ eventsOfType (createAutoEventsDiffs s c) .eventsAdded
      ↔ (e ∈ eventsOf c ∧ ∀ se ∈ eventsOf s, se.id ≠ e.id) := by
  rw [eventsOfType_diffs_added, List.mem_filter]
  have h1 : (e ∈ deserializeAutoEvents c) ↔ e ∈ eventsOf c := mem_sortEvents e _
  have h2 : (!(hasId (deserializeAutoEvents s) e.id)) = true
      ↔ ∀ se ∈ eventsOf s, se.id ≠ e.id := by
    rw [Bool.not_eq_true']
    rw [show hasId (deserializeAutoEvents s) e.id = hasId (eventsOf s) e.id from
      hasId_sortEvents _ _]
    exact hasId_eq_false_iff _ _
  rw [h1, h2]

theorem mem_changed_group_iff (s c : SerializedData) (hc : UniqueIds (eventsOf c))
    (e : AutomationEvent) :
    e ∈ eventsOfType (createAutoEventsDiffs s c) .eventsChanged
      ↔ (e ∈ eventsOf c ∧ ∃ se ∈ eventsOf s, se.id = e.id ∧
          (se.beat ≠ e.beat ∨ se.curvature ≠ e.curvature
            ∨ se.controllerValue ≠ e.controllerValue)) := by
  have hCu : UniqueIds (deserializeAutoEvents c) := (uniqueIds_sortEvents _).mpr hc
  rw [eventsOfType_diffs_changed, List.mem_filterMap]
  constructor
  · rintro ⟨se, hse, hg⟩
    cases hfind : (deserializeAutoEvents c).find? fun ce => se.id == ce.id with
    | none => rw [hfind] at hg; cases hg
    | some ce =>
      rw [hfind] at hg
      have hg2 : (if eventHasChanged se ce = true then some ce else none) = some e := hg
      by_cases hch : eventHasChanged se ce = true
      · rw [if_pos hch] at hg2
        injection hg2 with hg2
        have hid : se.id = e.id := by
          have h2 := List.find?_some hfind
          rw [hg2] at h2
          simpa using h2
        refine ⟨(mem_sortEvents e _).mp (hg2 ▸ List.mem_of_find?_eq_some hfind),
          se, (mem_sortEvents se _).mp hse, hid, ?_⟩
        exact (eventHasChanged_iff se e).mp (hg2 ▸ hch)
      · rw [if_neg hch] at hg2
        cases hg2
  · rintro ⟨he, se, hse, hid, hdiff⟩
    refine ⟨se, (mem_sortEvents se _).mpr hse, ?_⟩
    have hfind : (deserializeAutoEvents c).find? (fun ce => se.id == ce.id) = some e :=
      find?_eq_some_of_uniqueIds _ e hCu ((mem_sortEvents e _).mpr he) se.id hid.symm
    rw [hfind]
    show (if eventHasChanged se e = true then some e else none) = some e
    rw [if_pos ((eventHasChanged_iff se e).mpr hdiff)]

theorem mem_ite_singleton {α : Type} {P : Prop} [Decidable P] {d x : α}
    (h : d ∈ if P then [x] else []) : P ∧ d = x := by
  by_cases hp : P
  · rw [if_pos hp] at h
    exact ⟨hp, List.mem_singleton.mp h⟩
  · rw [if_neg hp] at h
    cases h

theorem createAutoEventsDiffs_delta_shape (s c : SerializedData) :
    ∀ d ∈ createAutoEventsDiffs s c,
      ((d.delta.type = DeltaType.eventsAdded ∧ d.delta.description = "added {x} events")
        ∨ (d.delta.type = DeltaType.eventsRemoved ∧ d.delta.description = "removed {x} events")
        ∨ (d.delta.type = DeltaType.eventsChanged ∧ d.delta.description = "changed {x} events")) ∧
      d.delta.changeCount = some ((eventsOf d.deltaData).length : Int) ∧
      eventsOf d.deltaData ≠ [] := by
  intro d hd
  rw [createAutoEventsDiffs] at hd
  simp only [List.mem_append] at hd
  rcases hd with (h | h) | h
  · obtain ⟨hp, rfl⟩ := mem_ite_singleton h
    refine ⟨Or.inl ⟨rfl, rfl⟩, ?_, ?_⟩
    · simp [serializeAutoTrackChanges, eventsOf_serializeAutoSequence]
    · simp only [serializeAutoTrackChanges, eventsOf_serializeAutoSequence]
      exact List.length_pos.mp hp
  · obtain ⟨hp, rfl⟩ := mem_ite_singleton h
    refine ⟨Or.inr (Or.inl ⟨rfl, rfl⟩), ?_, ?_⟩
    · simp [serializeAutoTrackChanges, eventsOf_serializeAutoSequence]
    · simp only [serializeAutoTrackChanges, eventsOf_serializeAutoSequence]
      exact List.length_pos.mp hp
  · obtain ⟨hp, rfl⟩ := mem_ite_singleton h
    refine ⟨Or.inr (Or.inr ⟨rfl, rfl⟩), ?_, ?_⟩
    · simp [serializeAutoTrackChanges, eventsOf_serializeAutoSequence]
    · simp only [serializeAutoTrackChanges, eventsOf_serializeAutoSequence]
      exact List.length_pos.mp hp

theorem diffs_added_count_le (s c : SerializedData) :
    (diffsOfType (createAutoEventsDiffs s c) .eventsAdded).length ≤ 1 := by
  simp only [createAutoEventsDiffs, diffsOfType, List.filter_append]
  rcases eq_or_ne ((deserializeAutoEvents c).filter
      fun ce => !(hasId (deserializeAutoEvents s) ce.id)) [] with hA | hA <;>
    rcases eq_or_ne ((deserializeAutoEvents s).filter
      fun se => !(hasId (deserializeAutoEvents c) se.id)) [] with hR | hR <;>
    rcases eq_or_ne ((deserializeAutoEvents s).filterMap fun se =>
      match (deserializeAutoEvents c).find? (fun ce => se.id == ce.id) with
      | some ce => if eventHasChanged se ce then some ce else none
      | none => none) [] with hC | hC <;>
    simp [hA, hR, hC, List.length_pos, serializeAutoTrackChanges]

theorem diffs_removed_count_le (s c : SerializedData) :
    (diffsOfType (createAutoEventsDiffs s c) .eventsRemoved).length ≤ 1 := by
  simp only [createAutoEventsDiffs, diffsOfType, List.filter_append]
  rcases eq_or_ne ((deserializeAutoEvents c).filter
      fun ce => !(hasId (deserializeAutoEvents s) ce.id)) [] with hA | hA <;>
    rcases eq_or_ne ((deserializeAutoEvents s).filter
      fun se => !(hasId (deserializeAutoEvents c) se.id)) [] with hR | hR <;>
    rcases eq_or_ne ((deserializeAutoEvents s).filterMap fun se =>
      match (deserializeAutoEvents c).find? (fun ce => se.id == ce.id) with
      | some ce => if eventHasChanged se ce then some ce else none
      | none => none) [] with hC | hC <;>
    simp [hA, hR, hC, List.length_pos, serializeAutoTrackChanges]

theorem diffs_changed_count_le (s c : SerializedData) :
    (diffsOfType (createAutoEventsDiffs s c) .eventsChanged).length ≤ 1 := by
  simp only [createAutoEventsDiffs, diffsOfType, List.filter_append]
  rcases eq_or_ne ((deserializeAutoEvents c).filter
      fun ce => !(hasId (deserializeAutoEvents s) ce.id)) [] with hA | hA <;>
    rcases eq_or_ne ((deserializeAutoEvents s).filter
      fun se => !(hasId (deserializeAutoEvents c) se.id)) [] with hR | hR <;>
    rcases eq_or_ne ((deserializeAutoEvents s).filterMap fun se =>
      match (deserializeAutoEvents c).find? (fun ce => se.id == ce.id) with
      | some ce => if eventHasChanged se ce then some ce else none
      | none => none) [] with hC | hC <;>
    simp [hA, hR, hC, List.length_pos, serializeAutoTrackChanges]

/-- C3: the collection diff partitions by id — a state event with no same-id
changes event is in the removed group, a changes event that shares its id
with a state event while differing in beat, curvature or controller value is
in the changed group, and a changes event with no same-id state event is in
the added group; every emitted DeltaDiff carries one of the three tags with
its count-bearing description and a non-empty payload (so an empty group
emits nothing), and each tag is emitted at most once. -/
theorem createAutoEventsDiffs_partitions (s c : SerializedData)
    (hs : UniqueIds (eventsOf s)) (hc : UniqueIds (eventsOf c)) :
    (∀ e, e ∈ eventsOfType (createAutoEventsDiffs s c) .eventsRemoved
        ↔ (e ∈ eventsOf s ∧ ∀ ce ∈ eventsOf c, ce.id ≠ e.id)) ∧
    (∀ e, e ∈ eventsOfType (createAutoEventsDiffs s c) .eventsChanged
        ↔ (e ∈ eventsOf c ∧ ∃ se ∈ eventsOf s, se.id = e.id ∧
            (se.beat ≠ e.beat ∨ se.curvature ≠ e.curvature
              ∨ se.controllerValue ≠ e.controllerValue))) ∧
    (∀ e, e ∈ eventsOfType (createAutoEventsDiffs s c) .eventsAdded
        ↔ (e ∈ eventsOf c ∧ ∀ se ∈ eventsOf s, se.id ≠ e.id)) ∧
    (∀ d ∈ createAutoEventsDiffs s c,
      ((d.delta.type = DeltaType.eventsAdded ∧ d.delta.description = "added {x} events")
        ∨ (d.delta.type = DeltaType.eventsRemoved ∧ d.delta.description = "removed {x} events")
        ∨ (d.delta.type = DeltaType.eventsChanged ∧ d.delta.description = "changed {x} events")) ∧
      d.delta.changeCount = some ((eventsOf d.deltaData).length : Int) ∧
      eventsOf d.deltaData ≠ []) ∧
    (diffsOfType (createAutoEventsDiffs s c) .eventsAdded).length ≤ 1 ∧
    (diffsOfType (createAutoEventsDiffs s c) .eventsRemoved).length ≤ 1 ∧
    (diffsOfType (createAutoEventsDiffs s c) .eventsChanged).length ≤ 1 :=
  ⟨mem_removed_group_iff s c, mem_changed_group_iff s c hc, mem_added_group_iff s c,
   createAutoEventsDiffs_delta_shape s c, diffs_added_count_le s c,
   diffs_removed_count_le s c, diffs_changed_count_le s c⟩

/-- Witness for C3 at the claim's example: state events [id 1 at beat 0,
id 2 at beat 1] and changes events [id 2 at beat 2, id 3 at beat 3]; the
groups evaluate to removed = [id 1], changed = [id 2 at beat 2], added =
[id 3 at beat 3]. -/
theorem createAutoEventsDiffs_partitions_witness :
    UniqueIds (eventsOf (.tree .eventsAdded
      [.event ⟨"1", 0, 0, 0⟩, .event ⟨"2", 1, 0, 0⟩])) ∧
    UniqueIds (eventsOf (.tree .eventsAdded
      [.event ⟨"2", 2, 0, 0⟩, .event ⟨"3", 3, 0, 0⟩])) ∧
    eventsOfType (createAutoEventsDiffs
      (.tree .eventsAdded [.event ⟨"1", 0, 0, 0⟩, .event ⟨"2", 1, 0, 0⟩])
      (.tree .eventsAdded [.event ⟨"2", 2, 0, 0⟩, .event ⟨"3", 3, 0, 0⟩]))
      .eventsRemoved = [⟨"1", 0, 0, 0⟩] ∧
    eventsOfType (createAutoEventsDiffs
      (.tree .eventsAdded [.event ⟨"1", 0, 0, 0⟩, .event ⟨"2", 1, 0, 0⟩])
      (.tree .eventsAdded [.event ⟨"2", 2, 0, 0⟩, .event ⟨"3", 3, 0, 0⟩]))
      .eventsChanged = [⟨"2", 2, 0, 0⟩] ∧
    eventsOfType (createAutoEventsDiffs
      (.tree .eventsAdded [.event ⟨"1", 0, 0, 0⟩, .event ⟨"2", 1, 0, 0⟩])
      (.tree .eventsAdded [.event ⟨"2", 2, 0, 0⟩, .event ⟨"3", 3, 0, 0⟩]))
      .eventsAdded = [⟨"3", 3, 0, 0⟩] ∧
    ((∀ e, e ∈ eventsOfType (createAutoEventsDiffs
        (.tree .eventsAdded [.event ⟨"1", 0, 0, 0⟩, .event ⟨"2", 1, 0, 0⟩])
        (.tree .eventsAdded [.event ⟨"2", 2, 0, 0⟩, .event ⟨"3", 3, 0, 0⟩]))
        .eventsRemoved
        ↔ (e ∈ eventsOf (.tree .eventsAdded
            [.event ⟨"1", 0, 0, 0⟩, .event ⟨"2", 1, 0, 0⟩]) ∧
          ∀ ce ∈ eventsOf (.tree .eventsAdded
            [.event ⟨"2", 2, 0, 0⟩, .event ⟨"3", 3, 0, 0⟩]), ce.id ≠ e.id)) ∧
     (∀ e, e ∈ eventsOfType (createAutoEventsDiffs
        (.tree .eventsAdded [.event ⟨"1", 0, 0, 0⟩, .event ⟨"2", 1, 0, 0⟩])
        (.tree .eventsAdded [.event ⟨"2", 2, 0, 0⟩, .event ⟨"3", 3, 0, 0⟩]))
        .eventsChanged
        ↔ (e ∈ eventsOf (.tree .eventsAdded
            [.event ⟨"2", 2, 0, 0⟩, .event ⟨"3", 3, 0, 0⟩]) ∧
          ∃ se ∈ eventsOf (.tree .eventsAdded
            [.event ⟨"1", 0, 0, 0⟩, .event ⟨"2", 1, 0, 0⟩]), se.id = e.id ∧
            (se.beat ≠ e.beat ∨ se.curvature ≠ e.curvature
              ∨ se.controllerValue ≠ e.controllerValue))) ∧
     (∀ e, e ∈ eventsOfType (createAutoEventsDiffs
        (.tree .eventsAdded [.event ⟨"1", 0, 0, 0⟩, .event ⟨"2", 1, 0, 0⟩])
        (.tree .eventsAdded [.event ⟨"2", 2, 0, 0⟩, .event ⟨"3", 3, 0, 0⟩]))
        .eventsAdded
        ↔ (e ∈ eventsOf (.tree .eventsAdded
            [.event ⟨"2", 2, 0, 0⟩, .event ⟨"3", 3, 0, 0⟩]) ∧
          ∀ se ∈ eventsOf (.tree .eventsAdded
            [.event ⟨"1", 0, 0, 0⟩, .event ⟨"2", 1, 0, 0⟩]), se.id ≠ e.id)) ∧
     (∀ d ∈ createAutoEventsDiffs
        (.tree .eventsAdded [.event ⟨"1", 0, 0, 0⟩, .event ⟨"2", 1, 0, 0⟩])
        (.tree .eventsAdded [.event ⟨"2", 2, 0, 0⟩, .event ⟨"3", 3, 0, 0⟩]),
      ((d.delta.type = DeltaType.eventsAdded ∧ d.delta.description = "added {x} events")
        ∨ (d.delta.type = DeltaType.eventsRemoved ∧ d.delta.description = "removed {x} events")
        ∨ (d.delta.type = DeltaType.eventsChanged ∧ d.delta.description = "changed {x} events")) ∧
      d.delta.changeCount = some ((eventsOf d.deltaData).length : Int) ∧
      eventsOf d.deltaData ≠ []) ∧
     (diffsOfType (createAutoEventsDiffs
        (.tree .eventsAdded [.event ⟨"1", 0, 0, 0⟩, .event ⟨"2", 1, 0, 0⟩])
        (.tree .eventsAdded [.event ⟨"2", 2, 0, 0⟩, .event ⟨"3", 3, 0, 0⟩]))
        .eventsAdded).length ≤ 1 ∧
     (diffsOfType (createAutoEventsDiffs
        (.tree .eventsAdded [.event ⟨"1", 0, 0, 0⟩, .event ⟨"2", 1, 0, 0⟩])
        (.tree .eventsAdded [.event ⟨"2", 2, 0, 0⟩, .event ⟨"3", 3, 0, 0⟩]))
        .eventsRemoved).length ≤ 1 ∧
     (diffsOfType (createAutoEventsDiffs
        (.tree .eventsAdded [.event ⟨"1", 0, 0, 0⟩, .event ⟨"2", 1, 0, 0⟩])
        (.tree .eventsAdded [.event ⟨"2", 2, 0, 0⟩, .event ⟨"3", 3, 0, 0⟩]))
        .eventsChanged).length ≤ 1) :=
  ⟨by decide, by decide, by decide, by decide, by decide,
   createAutoEventsDiffs_partitions _ _ (by decide) (by decide)⟩

theorem mergeStep_no_match (sd : Delta) (p : SerializedData) (acc : MergeAcc)
    (t : Delta × SerializedData)
    (h1 : ¬ sd.type = t.1.type)
    (h2 : ¬ (checkIfDeltaIsEventsType sd ∧ checkIfDeltaIsEventsType t.1))
    (h3 : ¬ (checkIfDeltaIsPatternType sd ∧ checkIfDeltaIsPatternType t.1)) :
    mergeStep sd p acc t = acc := by
  simp [mergeStep, h1, h2, h3]

theorem mergeStep_emitted (sd : Delta) (p : SerializedData) (acc : MergeAcc)
    (t : Delta × SerializedData) :
    (mergeStep sd p acc t).emitted
      = acc.emitted ++ (if sd.type = t.1.type then scalarMergeEmit p t.1 t.2 else []) := by
  by_cases h1 : sd.type = t.1.type <;>
    by_cases h2 : checkIfDeltaIsEventsType sd ∧ checkIfDeltaIsEventsType t.1 <;>
      by_cases h3 : checkIfDeltaIsPatternType sd ∧ checkIfDeltaIsPatternType t.1 <;>
        simp [mergeStep, h1, h2, h3]

theorem mergeStep_found_mono (sd : Delta) (p : SerializedData) (acc : MergeAcc)
    (t : Delta × SerializedData) (h : acc.found = true) :
    (mergeStep sd p acc t).found = true := by
  by_cases h1 : sd.type = t.1.type <;>
    by_cases h2 : checkIfDeltaIsEventsType sd ∧ checkIfDeltaIsEventsType t.1 <;>
      by_cases h3 : checkIfDeltaIsPatternType sd ∧ checkIfDeltaIsPatternType t.1 <;>
        simp [mergeStep, h1, h2, h3, h]

theorem mergeStep_eventsData_of_not_events (sd : Delta) (p : SerializedData)
    (acc : MergeAcc) (t : Delta × SerializedData)
    (h : ¬ checkIfDeltaIsEventsType sd) :
    (mergeStep sd p acc t).eventsData = acc.eventsData := by
  have h2 : ¬ (checkIfDeltaIsEventsType sd ∧ checkIfDeltaIsEventsType t.1) :=
    fun hh => h hh.1
  by_cases h1 : sd.type = t.1.type <;>
    by_cases h3 : checkIfDeltaIsPatternType sd ∧ checkIfDeltaIsPatternType t.1 <;>
      simp [mergeStep, h1, h2, h3]

theorem mergeStep_clipsData_of_not_pattern (sd : Delta) (p : SerializedData)
    (acc : MergeAcc) (t : Delta × SerializedData)
    (h : ¬ checkIfDeltaIsPatternType sd) :
    (mergeStep sd p acc t).clipsData = acc.clipsData := by
  have h3 : ¬ (checkIfDeltaIsPatternType sd ∧ checkIfDeltaIsPatternType t.1) :=
    fun hh => h hh.1
  by_cases h1 : sd.type = t.1.type <;>
    by_cases h2 : checkIfDeltaIsEventsType sd ∧ checkIfDeltaIsEventsType t.1 <;>
      simp [mergeStep, h1, h2, h3]

theorem mergeStep_events_valid_imp_found (sd : Delta) (p : SerializedData)
    (acc : MergeAcc) (t : Delta × SerializedData)
    (h : acc.eventsData.isValid = true → acc.found = true) :
    (mergeStep sd p acc t).eventsData.isValid = true
      → (mergeStep sd p acc t).found = true := by
  by_cases h1 : sd.type = t.1.type <;>
    by_cases h2 : checkIfDeltaIsEventsType sd ∧ checkIfDeltaIsEventsType t.1 <;>
      by_cases h3 : checkIfDeltaIsPatternType sd ∧ checkIfDeltaIsPatternType t.1 <;>
        simp [mergeStep, h1, h2, h3] <;> intro hv <;> exact h hv

theorem mergeStep_clips_valid_imp_found (sd : Delta) (p : SerializedData)
    (acc : MergeAcc) (t : Delta × SerializedData)
    (h : acc.clipsData.isValid = true → acc.found = true) :
    (mergeStep sd p acc t).clipsData.isValid = true
      → (mergeStep sd p acc t).found = true := by
  by_cases h1 : sd.type = t.1.type <;>
    by_cases h2 : checkIfDeltaIsEventsType sd ∧ checkIfDeltaIsEventsType t.1 <;>
      by_cases h3 : checkIfDeltaIsPatternType sd ∧ checkIfDeltaIsPatternType t.1 <;>
        simp [mergeStep, h1, h2, h3] <;> intro hv <;> exact h hv

theorem foldl_mergeStep_no_match (sd : Delta) (p : SerializedData)
    (ts : List (Delta × SerializedData))
    (h : ∀ t ∈ ts, ¬ sd.type = t.1.type
      ∧ ¬ (checkIfDeltaIsEventsType sd ∧ checkIfDeltaIsEventsType t.1)
      ∧ ¬ (checkIfDeltaIsPatternType sd ∧ checkIfDeltaIsPatternType t.1)) :
    ∀ acc : MergeAcc, ts.foldl (mergeStep sd p) acc = acc := by
  induction ts with
  | nil => intro acc; rfl
  | cons t rest ih =>
    intro acc
    rw [List.foldl_cons,
      mergeStep_no_match sd p acc t (h t (by simp)).1 (h t (by simp)).2.1 (h t (by simp)).2.2]
    exact ih (fun x hx => h x (by simp [hx])) acc

theorem foldl_mergeStep_emitted (sd : Delta) (p : SerializedData)
    (ts : List (Delta × SerializedData)) :
    ∀ acc : MergeAcc, (ts.foldl (mergeStep sd p) acc).emitted
      = acc.emitted
        ++ ts.flatMap fun t => if sd.type = t.1.type then scalarMergeEmit p t.1 t.2 else [] := by
  induction ts with
  | nil => intro acc; simp
  | cons t rest ih =>
    intro acc
    rw [List.foldl_cons, ih (mergeStep sd p acc t), mergeStep_emitted, List.flatMap_cons,
      List.append_assoc]

theorem foldl_mergeStep_found_mono (sd : Delta) (p : SerializedData)
    (ts : List (Delta × SerializedData)) :
    ∀ acc : MergeAcc, acc.found = true → (ts.foldl (mergeStep sd p) acc).found = true := by
  induction ts with
  | nil => intro acc h; exact h
  | cons t rest ih =>
    intro acc h
    rw [List.foldl_cons]
    exact ih _ (mergeStep_found_mono sd p acc t h)

theorem foldl_mergeStep_eventsData_of_not_events (sd : Delta) (p : SerializedData)
    (ts : List (Delta × SerializedData)) (h : ¬ checkIfDeltaIsEventsType sd) :
    ∀ acc : MergeAcc, (ts.foldl (mergeStep sd p) acc).eventsData = acc.eventsData := by
  induction ts with
  | nil => intro acc; rfl
  | cons t rest ih =>
    intro acc
    rw [List.foldl_cons, ih (mergeStep sd p acc t),
      mergeStep_eventsData_of_not_events sd p acc t h]

theorem foldl_mergeStep_clipsData_of_not_pattern (sd : Delta) (p : SerializedData)
    (ts : List (Delta × SerializedData)) (h : ¬ checkIfDeltaIsPatternType sd) :
    ∀ acc : MergeAcc, (ts.foldl (mergeStep sd p) acc).clipsData = acc.clipsData := by
  induction ts with
  | nil => intro acc; rfl
  | cons t rest ih =>
    intro acc
    rw [List.foldl_cons, ih (mergeStep sd p acc t),
      mergeStep_clipsData_of_not_pattern sd p acc t h]

theorem foldl_mergeStep_events_valid_imp_found (sd : Delta) (p : SerializedData)
    (ts : List (Delta × SerializedData)) :
    ∀ acc : MergeAcc, (acc.eventsData.isValid = true → acc.found = true)
      → (ts.foldl (mergeStep sd p) acc).eventsData.isValid = true
      → (ts.foldl (mergeStep sd p) acc).found = true := by
  induction ts with
  | nil => intro acc h; exact h
  | cons t rest ih =>
    intro acc h
    rw [List.foldl_cons]
    exact ih _ (mergeStep_events_valid_imp_found sd p acc t h)

theorem foldl_mergeStep_clips_valid_imp_found (sd : Delta) (p : SerializedData)
    (ts : List (Delta × SerializedData)) :
    ∀ acc : MergeAcc, (acc.clipsData.isValid = true → acc.found = true)
      → (ts.foldl (mergeStep sd p) acc).clipsData.isValid = true
      → (ts.foldl (mergeStep sd p) acc).found = true := by
  induction ts with
  | nil => intro acc h; exact h
  | cons t rest ih =>
    intro acc h
    rw [List.foldl_cons]
    exact ih _ (mergeStep_clips_valid_imp_found sd p acc t h)

theorem scalarMergeEmit_delta (p : SerializedData) (td : Delta) (tdata : SerializedData) :
    ∀ dd ∈ scalarMergeEmit p td tdata, dd.delta = td := by
  intro dd hdd
  unfold scalarMergeEmit at hdd
  split at hdd
  · rw [List.mem_singleton.mp hdd]
  · split at hdd
    · rw [List.mem_singleton.mp hdd]
    · split at hdd
      · rw [List.mem_singleton.mp hdd]
      · split at hdd
        · rw [List.mem_singleton.mp hdd]
        · split at hdd
          · rw [List.mem_singleton.mp hdd]
          · cases hdd

theorem scalarMergeEmit_of_events_type (p : SerializedData) (td : Delta)
    (tdata : SerializedData) (h : checkIfDeltaIsEventsType td) :
    scalarMergeEmit p td tdata = [] := by
  rcases h with h | h | h <;> simp [scalarMergeEmit, h]

theorem scalarMergeEmit_of_pattern_type (p : SerializedData) (td : Delta)
    (tdata : SerializedData) (h : checkIfDeltaIsPatternType td) :
    scalarMergeEmit p td tdata = [] := by
  rcases h with h | h | h <;> simp [scalarMergeEmit, h]

theorem mergeIterOne_of_no_match (ts : List (Delta × SerializedData))
    (sd : Delta × SerializedData)
    (h : ∀ t ∈ ts, ¬ sd.1.type = t.1.type
      ∧ ¬ (checkIfDeltaIsEventsType sd.1 ∧ checkIfDeltaIsEventsType t.1)
      ∧ ¬ (checkIfDeltaIsPatternType sd.1 ∧ checkIfDeltaIsPatternType t.1)) :
    mergeIterOne ts sd = [⟨sd.1, sd.2⟩] := by
  unfold mergeIterOne
  rw [foldl_mergeStep_no_match sd.1 sd.2 ts h]
  simp [SerializedData.isValid]

theorem mergeIterOne_delta_types (ts : List (Delta × SerializedData))
    (sd : Delta × SerializedData) :
    ∀ dd ∈ mergeIterOne ts sd,
      dd.delta.type = sd.1.type
        ∨ dd.delta = ⟨.eventsAdded, headStateDescription, none⟩
        ∨ dd.delta = ⟨.clipsAdded, headStateDescription, none⟩ := by
  intro dd hdd
  unfold mergeIterOne at hdd
  simp only [List.mem_append] at hdd
  rcases hdd with ((h | h) | h) | h
  · rw [foldl_mergeStep_emitted] at h
    simp only [List.nil_append, List.mem_flatMap] at h
    obtain ⟨t, ht, h2⟩ := h
    by_cases hst : sd.1.type = t.1.type
    · rw [if_pos hst] at h2
      left
      rw [scalarMergeEmit_delta sd.2 t.1 t.2 dd h2]
      exact hst.symm
    · rw [if_neg hst] at h2
      cases h2
  · obtain ⟨_, rfl⟩ := mem_ite_singleton h
    exact Or.inr (Or.inl rfl)
  · obtain ⟨_, rfl⟩ := mem_ite_singleton h
    exact Or.inr (Or.inr rfl)
  · by_cases hf : (ts.foldl (mergeStep sd.1 sd.2) ⟨false, .invalid, .invalid, []⟩).found = true
    · rw [if_pos hf] at h
      cases h
    · rw [if_neg hf] at h
      rw [List.mem_singleton.mp h]
      exact Or.inl rfl

theorem mergeIterOne_emitted_empty_of_events (ts : List (Delta × SerializedData))
    (sd : Delta × SerializedData) (h : checkIfDeltaIsEventsType sd.1) :
    (ts.foldl (mergeStep sd.1 sd.2) ⟨false, .invalid, .invalid, []⟩).emitted = [] := by
  rw [foldl_mergeStep_emitted]
  simp only [List.nil_append]
  rw [List.flatMap_eq_nil_iff]
  intro t ht
  by_cases hst : sd.1.type = t.1.type
  · rw [if_pos hst]
    apply scalarMergeEmit_of_events_type
    rcases h with h | h | h
    · exact Or.inl (hst ▸ h)
    · exact Or.inr (Or.inl (hst ▸ h))
    · exact Or.inr (Or.inr (hst ▸ h))
  · rw [if_neg hst]

theorem mergeIterOne_emitted_empty_of_pattern (ts : List (Delta × SerializedData))
    (sd : Delta × SerializedData) (h : checkIfDeltaIsPatternType sd.1) :
    (ts.foldl (mergeStep sd.1 sd.2) ⟨false, .invalid, .invalid, []⟩).emitted = [] := by
  rw [foldl_mergeStep_emitted]
  simp only [List.nil_append]
  rw [List.flatMap_eq_nil_iff]
  intro t ht
  by_cases hst : sd.1.type = t.1.type
  · rw [if_pos hst]
    apply scalarMergeEmit_of_pattern_type
    rcases h with h | h | h
    · exact Or.inl (hst ▸ h)
    · exact Or.inr (Or.inl (hst ▸ h))
    · exact Or.inr (Or.inr (hst ▸ h))
  · rw [if_neg hst]

theorem mergeIterOne_events_count_zero (ts : List (Delta × SerializedData))
    (sd : Delta × SerializedData) (h : ¬ checkIfDeltaIsEventsType sd.1) :
    ((mergeIterOne ts sd).filter fun dd => decide (checkIfDeltaIsEventsType dd.delta)).length
      = 0 := by
  rw [List.length_eq_zero, List.filter_eq_nil_iff]
  intro dd hdd
  simp only [decide_eq_true_eq]
  intro hev
  unfold mergeIterOne at hdd
  simp only [List.mem_append] at hdd
  rw [foldl_mergeStep_eventsData_of_not_events sd.1 sd.2 ts h] at hdd
  rcases hdd with ((h1 | h1) | h1) | h1
  · rw [foldl_mergeStep_emitted] at h1
    simp only [List.nil_append, List.mem_flatMap] at h1
    obtain ⟨t, ht, h2⟩ := h1
    by_cases hst : sd.1.type = t.1.type
    · rw [if_pos hst] at h2
      rw [scalarMergeEmit_delta sd.2 t.1 t.2 dd h2] at hev
      apply h
      rcases hev with hh | hh | hh
      · exact Or.inl (hst.trans hh)
      · exact Or.inr (Or.inl (hst.trans hh))
      · exact Or.inr (Or.inr (hst.trans hh))
    · rw [if_neg hst] at h2
      cases h2
  · rw [show (MergeAcc.mk false SerializedData.invalid SerializedData.invalid []).eventsData
        = SerializedData.invalid from rfl] at h1
    simp [SerializedData.isValid] at h1
  · obtain ⟨_, rfl⟩ := mem_ite_singleton h1
    rcases hev with hh | hh | hh <;> cases hh
  · by_cases hf : (ts.foldl (mergeStep sd.1 sd.2) ⟨false, .invalid, .invalid, []⟩).found = true
    · rw [if_pos hf] at h1
      cases h1
    · rw [if_neg hf] at h1
      rw [List.mem_singleton.mp h1] at hev
      exact h hev

theorem mergeIterOne_pattern_count_zero (ts : List (Delta × SerializedData))
    (sd : Delta × SerializedData) (h : ¬ checkIfDeltaIsPatternType sd.1) :
    ((mergeIterOne ts sd).filter fun dd => decide (checkIfDeltaIsPatternType dd.delta)).length
      = 0 := by
  rw [List.length_eq_zero, List.filter_eq_nil_iff]
  intro dd hdd
  simp only [decide_eq_true_eq]
  intro hpat
  unfold mergeIterOne at hdd
  simp only [List.mem_append] at hdd
  rw [foldl_mergeStep_clipsData_of_not_pattern sd.1 sd.2 ts h] at hdd
  rcases hdd with ((h1 | h1) | h1) | h1
  · rw [foldl_mergeStep_emitted] at h1
    simp only [List.nil_append, List.mem_flatMap] at h1
    obtain ⟨t, ht, h2⟩ := h1
    by_cases hst : sd.1.type = t.1.type
    · rw [if_pos hst] at h2
      rw [scalarMergeEmit_delta sd.2 t.1 t.2 dd h2] at hpat
      apply h
      rcases hpat with hh | hh | hh
      · exact Or.inl (hst.trans hh)
      · exact Or.inr (Or.inl (hst.trans hh))
      · exact Or.inr (Or.inr (hst.trans hh))
    · rw [if_neg hst] at h2
      cases h2
  · obtain ⟨_, rfl⟩ := mem_ite_singleton h1
    rcases hpat with hh | hh | hh <;> cases hh
  · rw [show (MergeAcc.mk false SerializedData.invalid SerializedData.invalid []).clipsData
        = SerializedData.invalid from rfl] at h1
    simp [SerializedData.isValid] at h1
  · by_cases hf : (ts.foldl (mergeStep sd.1 sd.2) ⟨false, .invalid, .invalid, []⟩).found = true
    · rw [if_pos hf] at h1
      cases h1
    · rw [if_neg hf] at h1
      rw [List.mem_singleton.mp h1] at hpat
      exact h hpat

theorem filter_ite_singleton_length_le {α : Type} (p : α → Bool) (P : Prop)
    [Decidable P] (x : α) :
    ((if P then [x] else []).filter p).length ≤ 1 := by
  by_cases hp : P
  · rw [if_pos hp]
    cases hx : p x <;> simp [List.filter, hx]
  · rw [if_neg hp]
    simp

theorem mergeIterOne_events_count_le_one (ts : List (Delta × SerializedData))
    (sd : Delta × SerializedData) :
    ((mergeIterOne ts sd).filter fun dd => decide (checkIfDeltaIsEventsType dd.delta)).length
      ≤ 1 := by
  by_cases h : checkIfDeltaIsEventsType sd.1
  case neg =>
    rw [mergeIterOne_events_count_zero ts sd h]
    exact Nat.zero_le 1
  case pos =>
    unfold mergeIterOne
    simp only [List.filter_append, List.length_append]
    rw [mergeIterOne_emitted_empty_of_events ts sd h]
    have hclips : ((List.filter (fun dd : DeltaDiff => decide (checkIfDeltaIsEventsType dd.delta))
        (if (ts.foldl (mergeStep sd.1 sd.2) ⟨false, .invalid, .invalid, []⟩).clipsData.isValid
              = true then
          [⟨⟨.clipsAdded, headStateDescription, none⟩,
            (ts.foldl (mergeStep sd.1 sd.2) ⟨false, .invalid, .invalid, []⟩).clipsData⟩]
        else [])).length) = 0 := by
      rw [List.length_eq_zero, List.filter_eq_nil_iff]
      intro dd hdd
      obtain ⟨_, rfl⟩ := mem_ite_singleton hdd
      simp [checkIfDeltaIsEventsType]
    by_cases hv : (ts.foldl (mergeStep sd.1 sd.2)
        ⟨false, .invalid, .invalid, []⟩).eventsData.isValid = true
    · have hf : (ts.foldl (mergeStep sd.1 sd.2) ⟨false, .invalid, .invalid, []⟩).found = true :=
        foldl_mergeStep_events_valid_imp_found sd.1 sd.2 ts _
          (fun hx => absurd hx (by simp [SerializedData.isValid])) hv
      rw [hf]
      simp only [if_true, List.filter_nil, List.length_nil, Nat.add_zero, hclips]
      have : ((List.filter (fun dd : DeltaDiff => decide (checkIfDeltaIsEventsType dd.delta))
          (if (ts.foldl (mergeStep sd.1 sd.2)
                ⟨false, .invalid, .invalid, []⟩).eventsData.isValid = true then
            [⟨⟨.eventsAdded, headStateDescription, none⟩,
              (ts.foldl (mergeStep sd.1 sd.2)
                ⟨false, .invalid, .invalid, []⟩).eventsData⟩]
          else [])).length) ≤ 1 := filter_ite_singleton_length_le _ _ _
      simpa using this
    · rw [Bool.not_eq_true] at hv
      rw [hv]
      simp only [Bool.false_eq_true, if_false, List.filter_nil, List.length_nil, hclips]
      have : ((List.filter (fun dd : DeltaDiff => decide (checkIfDeltaIsEventsType dd.delta))
          (if (ts.foldl (mergeStep sd.1 sd.2)
                ⟨false, .invalid, .invalid, []⟩).found = true then []
           else [⟨sd.1, sd.2⟩])).length) ≤ 1 := by
        by_cases hf : (ts.foldl (mergeStep sd.1 sd.2)
            ⟨false, .invalid, .invalid, []⟩).found = true
        · rw [if_pos hf]
          simp
        · rw [if_neg hf]
          cases hx : decide (checkIfDeltaIsEventsType (⟨sd.1, sd.2⟩ : DeltaDiff).delta) <;>
            simp [List.filter, hx]
      simpa using this

theorem mergeIterOne_pattern_count_le_one (ts : List (Delta × SerializedData))
    (sd : Delta × SerializedData) :
    ((mergeIterOne ts sd).filter fun dd => decide (checkIfDeltaIsPatternType dd.delta)).length
      ≤ 1 := by
  by_cases h : checkIfDeltaIsPatternType sd.1
  case neg =>
    rw [mergeIterOne_pattern_count_zero ts sd h]
    exact Nat.zero_le 1
  case pos =>
    unfold mergeIterOne
    simp only [List.filter_append, List.length_append]
    rw [mergeIterOne_emitted_empty_of_pattern ts sd h]
    have hevents : ((List.filter (fun dd : DeltaDiff => decide (checkIfDeltaIsPatternType dd.delta))
        (if (ts.foldl (mergeStep sd.1 sd.2) ⟨false, .invalid, .invalid, []⟩).eventsData.isValid
              = true then
          [⟨⟨.eventsAdded, headStateDescription, none⟩,
            (ts.foldl (mergeStep sd.1 sd.2) ⟨false, .invalid, .invalid, []⟩).eventsData⟩]
        else [])).length) = 0 := by
      rw [List.length_eq_zero, List.filter_eq_nil_iff]
      intro dd hdd
      obtain ⟨_, rfl⟩ := mem_ite_singleton hdd
      simp [checkIfDeltaIsPatternType]
    by_cases hv : (ts.foldl (mergeStep sd.1 sd.2)
        ⟨false, .invalid, .invalid, []⟩).clipsData.isValid = true
    · have hf : (ts.foldl (mergeStep sd.1 sd.2) ⟨false, .invalid, .invalid, []⟩).found = true :=
        foldl_mergeStep_clips_valid_imp_found sd.1 sd.2 ts _
          (fun hx => absurd hx (by simp [SerializedData.isValid])) hv
      rw [hf]
      simp only [if_true, List.filter_nil, List.length_nil, Nat.add_zero, hevents]
      have : ((List.filter (fun dd : DeltaDiff => decide (checkIfDeltaIsPatternType dd.delta))
          (if (ts.foldl (mergeStep sd.1 sd.2)
                ⟨false, .invalid, .invalid, []⟩).clipsData.isValid = true then
            [⟨⟨.clipsAdded, headStateDescription, none⟩,
              (ts.foldl (mergeStep sd.1 sd.2)
                ⟨false, .invalid, .invalid, []⟩).clipsData⟩]
          else [])).length) ≤ 1 := filter_ite_singleton_length_le _ _ _
      simpa using this
    · rw [Bool.not_eq_true] at hv
      rw [hv]
      simp only [Bool.false_eq_true, if_false, List.filter_nil, List.length_nil, hevents]
      have : ((List.filter (fun dd : DeltaDiff => decide (checkIfDeltaIsPatternType dd.delta))
          (if (ts.foldl (mergeStep sd.1 sd.2)
                ⟨false, .invalid, .invalid, []⟩).found = true then []
           else [⟨sd.1, sd.2⟩])).length) ≤ 1 := by
        by_cases hf : (ts.foldl (mergeStep sd.1 sd.2)
            ⟨false, .invalid, .invalid, []⟩).found = true
        · rw [if_pos hf]
          simp
        · rw [if_neg hf]
          cases hx : decide (checkIfDeltaIsPatternType (⟨sd.1, sd.2⟩ : DeltaDiff).delta) <;>
            simp [List.filter, hx]
      simpa using this

theorem mergedTimeSignaturePart_shape (ts : List (Delta × SerializedData)) :
    ∀ dd ∈ mergedTimeSignaturePart ts,
      dd.delta = ⟨.timeSignaturesChanged, headStateDescription, none⟩ := by
  intro dd hdd
  simp only [mergedTimeSignaturePart] at hdd
  split at hdd <;> rw [List.mem_singleton.mp hdd]

theorem mergedTimeSignaturePart_length (ts : List (Delta × SerializedData)) :
    (mergedTimeSignaturePart ts).length = 1 := by
  simp only [mergedTimeSignaturePart]
  split <;> rfl

theorem mergedClipsPart_shape (ts : List (Delta × SerializedData)) :
    ∀ dd ∈ mergedClipsPart ts,
      dd.delta = ⟨.clipsAdded, headStateDescription, none⟩ := by
  intro dd hdd
  simp only [mergedClipsPart] at hdd
  split at hdd <;> rw [List.mem_singleton.mp hdd]

theorem mergedClipsPart_length (ts : List (Delta × SerializedData)) :
    (mergedClipsPart ts).length = 1 := by
  simp only [mergedClipsPart]
  split <;> rfl

theorem tsig_fold_of_none (ts : List (Delta × SerializedData))
    (h : ∀ t ∈ ts, ¬ t.1.type = DeltaType.timeSignaturesChanged) :
    ∀ acc : SerializedData, ts.foldl
      (fun acc t =>
        if t.1.type = DeltaType.timeSignaturesChanged then
          mergeTimeSignature emptyTimeSignaturesData t.2
        else acc) acc = acc := by
  induction ts with
  | nil => intro acc; rfl
  | cons t rest ih =>
    intro acc
    rw [List.foldl_cons, if_neg (h t (by simp))]
    exact ih (fun x hx => h x (by simp [hx])) acc

theorem mergedTimeSignaturePart_of_no_tsig (ts : List (Delta × SerializedData))
    (h : (ts.filter fun t => decide (t.1.type = DeltaType.timeSignaturesChanged)) = []) :
    mergedTimeSignaturePart ts
      = [⟨⟨.timeSignaturesChanged, headStateDescription, none⟩, emptyTimeSignaturesData⟩] := by
  have hnone : ∀ t ∈ ts, ¬ t.1.type = DeltaType.timeSignaturesChanged := by
    intro t ht hty
    have : t ∈ ts.filter fun t => decide (t.1.type = DeltaType.timeSignaturesChanged) := by
      rw [List.mem_filter]
      exact ⟨ht, by simp [hty]⟩
    rw [h] at this
    cases this
  unfold mergedTimeSignaturePart
  rw [tsig_fold_of_none ts hnone]
  rfl

theorem mergedTimeSignaturePart_of_single_tsig (ts : List (Delta × SerializedData))
    (tp : Delta × SerializedData)
    (h : (ts.filter fun t => decide (t.1.type = DeltaType.timeSignaturesChanged)) = [tp])
    (hv : tp.2.isValid = true) :
    mergedTimeSignaturePart ts
      = [⟨⟨.timeSignaturesChanged, headStateDescription, none⟩, tp.2⟩] := by
  have hfold : ∀ (l : List (Delta × SerializedData)),
      (l.filter fun t => decide (t.1.type = DeltaType.timeSignaturesChanged)) = [tp] →
      ∀ acc : SerializedData, l.foldl
        (fun acc t =>
          if t.1.type = DeltaType.timeSignaturesChanged then
            mergeTimeSignature emptyTimeSignaturesData t.2
          else acc) acc = tp.2 := by
    intro l
    induction l with
    | nil => intro hl; cases hl
    | cons t rest ih =>
      intro hl acc
      by_cases hty : t.1.type = DeltaType.timeSignaturesChanged
      · rw [List.filter_cons_of_pos (by simp [hty])] at hl
        injection hl with h1 h2
        rw [List.foldl_cons, if_pos hty]
        have hrest : ∀ x ∈ rest, ¬ x.1.type = DeltaType.timeSignaturesChanged := by
          intro x hx hxty
          have : x ∈ rest.filter fun t =>
              decide (t.1.type = DeltaType.timeSignaturesChanged) := by
            rw [List.mem_filter]
            exact ⟨hx, by simp [hxty]⟩
          rw [h2] at this
          cases this
        rw [tsig_fold_of_none rest hrest]
        rw [h1]
        rfl
      · rw [List.filter_cons_of_neg (by simp [hty])] at hl
        rw [List.foldl_cons, if_neg hty]
        exact ih hl acc
  unfold mergedTimeSignaturePart
  rw [hfold ts h SerializedData.invalid]
  rw [if_pos hv]

/-- C4: a state delta with no strict type match in target and (for
events/pattern family deltas) no family-compatible target delta is
copy-forwarded: the output Diff contains a DeltaDiff with that delta and its
original payload unchanged. -/
theorem createMergedItem_copy_forward (target initialState : TrackedItem)
    (d : Delta) (p : SerializedData)
    (hmem : (d, p) ∈ initialState.deltas)
    (hstrict : ∀ t ∈ target.deltas, ¬ d.type = t.1.type)
    (hev : ∀ t ∈ target.deltas,
      ¬ (checkIfDeltaIsEventsType d ∧ checkIfDeltaIsEventsType t.1))
    (hpat : ∀ t ∈ target.deltas,
      ¬ (checkIfDeltaIsPatternType d ∧ checkIfDeltaIsPatternType t.1)) :
    (⟨d, p⟩ : DeltaDiff) ∈ createMergedItem target initialState := by
  have hiter : mergeIterOne target.deltas (d, p) = [⟨d, p⟩] :=
    mergeIterOne_of_no_match target.deltas (d, p)
      (fun t ht => ⟨hstrict t ht, hev t ht, hpat t ht⟩)
  unfold createMergedItem
  apply List.mem_append_left
  apply List.mem_append_left
  rw [List.mem_flatMap]
  exact ⟨(d, p), hmem, by rw [hiter]; exact List.mem_singleton_self _⟩

/-- Witness for C4 at a state holding one trackPath delta and a target
holding one trackColour delta: the path delta is copy-forwarded. -/
theorem createMergedItem_copy_forward_witness :
    ((⟨.trackPath, "path", none⟩, SerializedData.tree .trackPath [.other "A"])
        ∈ (TrackedItem.mk [(⟨.trackPath, "path", none⟩,
            SerializedData.tree .trackPath [.other "A"])]).deltas) ∧
    (∀ t ∈ (TrackedItem.mk [(⟨.trackColour, "col", none⟩,
        SerializedData.tree .trackColour [.other "B"])]).deltas,
      ¬ (⟨.trackPath, "path", none⟩ : Delta).type = t.1.type) ∧
    (∀ t ∈ (TrackedItem.mk [(⟨.trackColour, "col", none⟩,
        SerializedData.tree .trackColour [.other "B"])]).deltas,
      ¬ (checkIfDeltaIsEventsType ⟨.trackPath, "path", none⟩
          ∧ checkIfDeltaIsEventsType t.1)) ∧
    (∀ t ∈ (TrackedItem.mk [(⟨.trackColour, "col", none⟩,
        SerializedData.tree .trackColour [.other "B"])]).deltas,
      ¬ (checkIfDeltaIsPatternType ⟨.trackPath, "path", none⟩
          ∧ checkIfDeltaIsPatternType t.1)) ∧
    (⟨⟨.trackPath, "path", none⟩, SerializedData.tree .trackPath [.other "A"]⟩ : DeltaDiff)
      ∈ createMergedItem
          (TrackedItem.mk [(⟨.trackColour, "col", none⟩,
            SerializedData.tree .trackColour [.other "B"])])
          (TrackedItem.mk [(⟨.trackPath, "path", none⟩,
            SerializedData.tree .trackPath [.other "A"])]) :=
  ⟨by decide, by decide, by decide, by decide,
   createMergedItem_copy_forward _ _ _ _ (by decide) (by decide) (by decide) (by decide)⟩

/-- C5: every scalar merge function (path, colour, instrument,
time-signature, controller) returns a deep copy of the changes-side payload
unconditionally; the state-side value never influences the result. -/
theorem scalar_merges_last_write_wins (s c : SerializedData) :
    mergePath s c = c ∧ mergeColour s c = c ∧ mergeInstrument s c = c
      ∧ mergeTimeSignature s c = c ∧ mergeController s c = c :=
  ⟨rfl, rfl, rfl, rfl, rfl⟩

/-- C10: when the state carries no delta of a given scalar type (trackPath,
trackColour, trackInstrument, or trackController), the merged output carries
no DeltaDiff of that type either — only the time-signature and clips
families are synthesized by the forward-compatibility pass. -/
theorem scalar_target_delta_not_recovered (target initialState : TrackedItem)
    (ty : DeltaType)
    (hty : ty = .trackPath ∨ ty = .trackColour ∨ ty = .trackInstrument
      ∨ ty = .trackController)
    (habsent : ∀ sd ∈ initialState.deltas, ¬ sd.1.type = ty) :
    ∀ dd ∈ createMergedItem target initialState, ¬ dd.delta.type = ty := by
  intro dd hdd hcontra
  unfold createMergedItem at hdd
  simp only [List.mem_append] at hdd
  rcases hdd with (h | h) | h
  · rw [List.mem_flatMap] at h
    obtain ⟨sd, hsd, hin⟩ := h
    rcases mergeIterOne_delta_types target.deltas sd dd hin with h1 | h1 | h1
    · exact habsent sd hsd (h1 ▸ hcontra)
    · rw [h1] at hcontra
      rcases hty with rfl | rfl | rfl | rfl <;> simp at hcontra
    · rw [h1] at hcontra
      rcases hty with rfl | rfl | rfl | rfl <;> simp at hcontra
  · by_cases hc : ∃ sd ∈ initialState.deltas, sd.1.type = DeltaType.timeSignaturesChanged
    · rw [if_pos hc] at h
      cases h
    · rw [if_neg hc] at h
      rw [mergedTimeSignaturePart_shape target.deltas dd h] at hcontra
      rcases hty with rfl | rfl | rfl | rfl <;> simp at hcontra
  · by_cases hc : ∃ sd ∈ initialState.deltas, checkIfDeltaIsPatternType sd.1
    · rw [if_pos hc] at h
      cases h
    · rw [if_neg hc] at h
      rw [mergedClipsPart_shape target.deltas dd h] at hcontra
      rcases hty with rfl | rfl | rfl | rfl <;> simp at hcontra

/-- Witness for C10 at an empty state and a target holding one trackPath
delta: no trackPath DeltaDiff appears in the merged output. -/
theorem scalar_target_delta_not_recovered_witness :
    (DeltaType.trackPath = DeltaType.trackPath
      ∨ DeltaType.trackPath = DeltaType.trackColour
      ∨ DeltaType.trackPath = DeltaType.trackInstrument
      ∨ DeltaType.trackPath = DeltaType.trackController) ∧
    (∀ sd ∈ (TrackedItem.mk []).deltas, ¬ sd.1.type = DeltaType.trackPath) ∧
    (∀ dd ∈ createMergedItem
        (TrackedItem.mk [(⟨.trackPath, "path", none⟩,
          SerializedData.tree .trackPath [.other "B"])])
        (TrackedItem.mk []),
      ¬ dd.delta.type = DeltaType.trackPath) :=
  ⟨by decide, by decide,
   scalar_target_delta_not_recovered _ _ _ (by decide) (by decide)⟩

theorem main_pass_filter_tsig_nil (ts : List (Delta × SerializedData))
    (sds : List (Delta × SerializedData))
    (h : ∀ sd ∈ sds, ¬ sd.1.type = DeltaType.timeSignaturesChanged) :
    ((sds.flatMap (mergeIterOne ts)).filter
      fun d => d.delta.type == DeltaType.timeSignaturesChanged) = [] := by
  rw [List.filter_eq_nil_iff]
  intro dd hdd
  rw [List.mem_flatMap] at hdd
  obtain ⟨sd, hsd, hin⟩ := hdd
  intro hbeq
  rw [beq_iff_eq] at hbeq
  rcases mergeIterOne_delta_types ts sd dd hin with h1 | h1 | h1
  · exact h sd hsd (h1 ▸ hbeq)
  · rw [h1] at hbeq
    cases hbeq
  · rw [h1] at hbeq
    cases hbeq

theorem mergedTimeSignaturePart_filter_self (ts : List (Delta × SerializedData)) :
    ((mergedTimeSignaturePart ts).filter
      fun d => d.delta.type == DeltaType.timeSignaturesChanged)
      = mergedTimeSignaturePart ts := by
  rw [List.filter_eq_self]
  intro dd hdd
  rw [mergedTimeSignaturePart_shape ts dd hdd]
  rfl

theorem mergedClipsPart_filter_tsig_nil (ts : List (Delta × SerializedData)) :
    ((mergedClipsPart ts).filter
      fun d => d.delta.type == DeltaType.timeSignaturesChanged) = [] := by
  rw [List.filter_eq_nil_iff]
  intro dd hdd
  rw [mergedClipsPart_shape ts dd hdd]
  intro hbeq
  rw [beq_iff_eq] at hbeq
  cases hbeq

theorem main_pass_count_pattern_zero (ts : List (Delta × SerializedData))
    (sds : List (Delta × SerializedData))
    (h : ∀ sd ∈ sds, ¬ checkIfDeltaIsPatternType sd.1) :
    ((sds.flatMap (mergeIterOne ts)).filter
      fun dd => decide (checkIfDeltaIsPatternType dd.delta)).length = 0 := by
  induction sds with
  | nil => simp
  | cons sd rest ih =>
    rw [List.flatMap_cons, List.filter_append, List.length_append]
    rw [mergeIterOne_pattern_count_zero ts sd (h sd (by simp))]
    rw [ih (fun x hx => h x (by simp [hx]))]

theorem main_pass_count_events_le (ts : List (Delta × SerializedData))
    (sds : List (Delta × SerializedData)) :
    ((sds.flatMap (mergeIterOne ts)).filter
      fun dd => decide (checkIfDeltaIsEventsType dd.delta)).length
      ≤ (sds.filter fun sd => decide (checkIfDeltaIsEventsType sd.1)).length := by
  induction sds with
  | nil => simp
  | cons sd rest ih =>
    rw [List.flatMap_cons, List.filter_append, List.length_append]
    by_cases h : checkIfDeltaIsEventsType sd.1
    · rw [List.filter_cons_of_pos (by simp [h]), List.length_cons]
      have h1 := mergeIterOne_events_count_le_one ts sd
      omega
    · rw [List.filter_cons_of_neg (by simp [h])]
      rw [mergeIterOne_events_count_zero ts sd h]
      simpa using ih

theorem main_pass_count_pattern_le (ts : List (Delta × SerializedData))
    (sds : List (Delta × SerializedData)) :
    ((sds.flatMap (mergeIterOne ts)).filter
      fun dd => decide (checkIfDeltaIsPatternType dd.delta)).length
      ≤ (sds.filter fun sd => decide (checkIfDeltaIsPatternType sd.1)).length := by
  induction sds with
  | nil => simp
  | cons sd rest ih =>
    rw [List.flatMap_cons, List.filter_append, List.length_append]
    by_cases h : checkIfDeltaIsPatternType sd.1
    · rw [List.filter_cons_of_pos (by simp [h]), List.length_cons]
      have h1 := mergeIterOne_pattern_count_le_one ts sd
      omega
    · rw [List.filter_cons_of_neg (by simp [h])]
      rw [mergeIterOne_pattern_count_zero ts sd h]
      simpa using ih

theorem main_pass_count_events_zero (ts : List (Delta × SerializedData))
    (sds : List (Delta × SerializedData))
    (h : ∀ sd ∈ sds, ¬ checkIfDeltaIsEventsType sd.1) :
    ((sds.flatMap (mergeIterOne ts)).filter
      fun dd => decide (checkIfDeltaIsEventsType dd.delta)).length = 0 := by
  induction sds with
  | nil => simp
  | cons sd rest ih =>
    rw [List.flatMap_cons, List.filter_append, List.length_append]
    rw [mergeIterOne_events_count_zero ts sd (h sd (by simp))]
    rw [ih (fun x hx => h x (by simp [hx]))]

theorem mergedTimeSignaturePart_events_count (ts : List (Delta × SerializedData)) :
    ((mergedTimeSignaturePart ts).filter
      fun dd => decide (checkIfDeltaIsEventsType dd.delta)).length = 0 := by
  rw [List.length_eq_zero, List.filter_eq_nil_iff]
  intro dd hdd
  rw [mergedTimeSignaturePart_shape ts dd hdd]
  simp [checkIfDeltaIsEventsType]

theorem mergedTimeSignaturePart_pattern_count (ts : List (Delta × SerializedData)) :
    ((mergedTimeSignaturePart ts).filter
      fun dd => decide (checkIfDeltaIsPatternType dd.delta)).length = 0 := by
  rw [List.length_eq_zero, List.filter_eq_nil_iff]
  intro dd hdd
  rw [mergedTimeSignaturePart_shape ts dd hdd]
  simp [checkIfDeltaIsPatternType]

theorem mergedClipsPart_events_count (ts : List (Delta × SerializedData)) :
    ((mergedClipsPart ts).filter
      fun dd => decide (checkIfDeltaIsEventsType dd.delta)).length = 0 := by
  rw [List.length_eq_zero, List.filter_eq_nil_iff]
  intro dd hdd
  rw [mergedClipsPart_shape ts dd hdd]
  simp [checkIfDeltaIsEventsType]

theorem mergedClipsPart_pattern_count (ts : List (Delta × SerializedData)) :
    ((mergedClipsPart ts).filter
      fun dd => decide (checkIfDeltaIsPatternType dd.delta)).length = 1 := by
  have hself : ((mergedClipsPart ts).filter
      fun dd => decide (checkIfDeltaIsPatternType dd.delta)) = mergedClipsPart ts := by
    rw [List.filter_eq_self]
    intro dd hdd
    rw [mergedClipsPart_shape ts dd hdd]
    simp [checkIfDeltaIsPatternType]
  rw [hself, mergedClipsPart_length]

/-- C6: for every state with no time-signature delta, createMergedItem's
output contains exactly one time-signature DeltaDiff — carrying the target's
time-signature payload when the target carries exactly one valid one, and
the empty/default time-signature payload when the target carries none — and,
independently, for every state with no pattern-family delta the output
contains exactly one clips-family DeltaDiff. -/
theorem forward_compatibility_synthesis (target initialState : TrackedItem) :
    ((∀ sd ∈ initialState.deltas, ¬ sd.1.type = DeltaType.timeSignaturesChanged) →
      (diffsOfType (createMergedItem target initialState) .timeSignaturesChanged).length = 1 ∧
      ((target.deltas.filter fun t =>
          decide (t.1.type = DeltaType.timeSignaturesChanged)) = [] →
        diffsOfType (createMergedItem target initialState) .timeSignaturesChanged
          = [⟨⟨.timeSignaturesChanged, headStateDescription, none⟩,
              emptyTimeSignaturesData⟩]) ∧
      (∀ tp, (target.deltas.filter fun t =>
          decide (t.1.type = DeltaType.timeSignaturesChanged)) = [tp] →
        tp.2.isValid = true →
        diffsOfType (createMergedItem target initialState) .timeSignaturesChanged
          = [⟨⟨.timeSignaturesChanged, headStateDescription, none⟩, tp.2⟩])) ∧
    ((∀ sd ∈ initialState.deltas, ¬ checkIfDeltaIsPatternType sd.1) →
      countPatternFamily (createMergedItem target initialState) = 1) := by
  constructor
  · intro hts
    have hnotsig : ¬ ∃ sd ∈ initialState.deltas,
        sd.1.type = DeltaType.timeSignaturesChanged := by
      rintro ⟨sd, hsd, hty⟩
      exact hts sd hsd hty
    have hdiffs : diffsOfType (createMergedItem target initialState) .timeSignaturesChanged
        = mergedTimeSignaturePart target.deltas := by
      unfold createMergedItem diffsOfType
      rw [if_neg hnotsig]
      rw [List.filter_append, List.filter_append]
      rw [main_pass_filter_tsig_nil target.deltas initialState.deltas hts,
        mergedTimeSignaturePart_filter_self]
      have hclips : ((if ∃ sd ∈ initialState.deltas, checkIfDeltaIsPatternType sd.1
            then ([] : List DeltaDiff)
            else mergedClipsPart target.deltas).filter
          fun d => d.delta.type == DeltaType.timeSignaturesChanged) = [] := by
        by_cases hc : ∃ sd ∈ initialState.deltas, checkIfDeltaIsPatternType sd.1
        · rw [if_pos hc]
          rfl
        · rw [if_neg hc]
          exact mergedClipsPart_filter_tsig_nil _
      rw [hclips]
      simp
    refine ⟨?_, ?_, ?_⟩
    · rw [hdiffs]
      exact mergedTimeSignaturePart_length _
    · intro hempty
      rw [hdiffs]
      exact mergedTimeSignaturePart_of_no_tsig _ hempty
    · intro tp h1 h2
      rw [hdiffs]
      exact mergedTimeSignaturePart_of_single_tsig _ tp h1 h2
  · intro hpat
    have hnopat : ¬ ∃ sd ∈ initialState.deltas, checkIfDeltaIsPatternType sd.1 := by
      rintro ⟨sd, hsd, hty⟩
      exact hpat sd hsd hty
    unfold createMergedItem countPatternFamily
    rw [if_neg hnopat]
    rw [List.filter_append, List.filter_append, List.length_append, List.length_append]
    rw [main_pass_count_pattern_zero target.deltas initialState.deltas hpat]
    have htsseg : ((if ∃ sd ∈ initialState.deltas,
          sd.1.type = DeltaType.timeSignaturesChanged
          then ([] : List DeltaDiff)
          else mergedTimeSignaturePart target.deltas).filter
        fun dd => decide (checkIfDeltaIsPatternType dd.delta)).length = 0 := by
      by_cases hc : ∃ sd ∈ initialState.deltas,
          sd.1.type = DeltaType.timeSignaturesChanged
      · rw [if_pos hc]
        rfl
      · rw [if_neg hc]
        exact mergedTimeSignaturePart_pattern_count _
    rw [htsseg, mergedClipsPart_pattern_count]

/-- Witness for C6: the time-signature conjunct at a state carrying one
clipsAdded delta but no time-signature delta, against a target carrying one
valid time-signature delta; the clips conjunct at a state carrying one
time-signature delta but no pattern-family delta, against the same target. -/
theorem forward_compatibility_synthesis_witness :
    (∀ sd ∈ (TrackedItem.mk [(⟨.clipsAdded, "c", none⟩,
        SerializedData.tree .clipsAdded [])]).deltas,
      ¬ sd.1.type = DeltaType.timeSignaturesChanged) ∧
    ((diffsOfType (createMergedItem
        (TrackedItem.mk [(⟨.timeSignaturesChanged, "ts", none⟩,
          SerializedData.tree .timeSignaturesChanged [.other "sig"])])
        (TrackedItem.mk [(⟨.clipsAdded, "c", none⟩,
          SerializedData.tree .clipsAdded [])])) .timeSignaturesChanged).length = 1 ∧
     (((TrackedItem.mk [(⟨.timeSignaturesChanged, "ts", none⟩,
          SerializedData.tree .timeSignaturesChanged [.other "sig"])]).deltas.filter
        fun t => decide (t.1.type = DeltaType.timeSignaturesChanged)) = [] →
      diffsOfType (createMergedItem
        (TrackedItem.mk [(⟨.timeSignaturesChanged, "ts", none⟩,
          SerializedData.tree .timeSignaturesChanged [.other "sig"])])
        (TrackedItem.mk [(⟨.clipsAdded, "c", none⟩,
          SerializedData.tree .clipsAdded [])])) .timeSignaturesChanged
        = [⟨⟨.timeSignaturesChanged, headStateDescription, none⟩,
            emptyTimeSignaturesData⟩]) ∧
     (∀ tp, (((TrackedItem.mk [(⟨.timeSignaturesChanged, "ts", none⟩,
          SerializedData.tree .timeSignaturesChanged [.other "sig"])]).deltas.filter
        fun t => decide (t.1.type = DeltaType.timeSignaturesChanged)) = [tp] →
      tp.2.isValid = true →
      diffsOfType (createMergedItem
        (TrackedItem.mk [(⟨.timeSignaturesChanged, "ts", none⟩,
          SerializedData.tree .timeSignaturesChanged [.other "sig"])])
        (TrackedItem.mk [(⟨.clipsAdded, "c", none⟩,
          SerializedData.tree .clipsAdded [])])) .timeSignaturesChanged
        = [⟨⟨.timeSignaturesChanged, headStateDescription, none⟩, tp.2⟩]))) ∧
    (∀ sd ∈ (TrackedItem.mk [(⟨.timeSignaturesChanged, "st", none⟩,
        SerializedData.tree .timeSignaturesChanged [])]).deltas,
      ¬ checkIfDeltaIsPatternType sd.1) ∧
    countPatternFamily (createMergedItem
        (TrackedItem.mk [(⟨.timeSignaturesChanged, "ts", none⟩,
          SerializedData.tree .timeSignaturesChanged [.other "sig"])])
        (TrackedItem.mk [(⟨.timeSignaturesChanged, "st", none⟩,
          SerializedData.tree .timeSignaturesChanged [])])) = 1 :=
  ⟨by decide,
   (forward_compatibility_synthesis
      (TrackedItem.mk [(⟨.timeSignaturesChanged, "ts", none⟩,
        SerializedData.tree .timeSignaturesChanged [.other "sig"])])
      (TrackedItem.mk [(⟨.clipsAdded, "c", none⟩,
        SerializedData.tree .clipsAdded [])])).1 (by decide),
   by decide,
   (forward_compatibility_synthesis
      (TrackedItem.mk [(⟨.timeSignaturesChanged, "ts", none⟩,
        SerializedData.tree .timeSignaturesChanged [.other "sig"])])
      (TrackedItem.mk [(⟨.timeSignaturesChanged, "st", none⟩,
        SerializedData.tree .timeSignaturesChanged [])])).2 (by decide)⟩

/-- C7 (amended): when the state carries at most one events-family delta and
at most one pattern-family delta — multiple target deltas of a family are
still consolidated into one DeltaDiff per family — the merged output
contains at most one events-family DeltaDiff and at most one clips-family
DeltaDiff; when the state itself carries several deltas of one family, one
consolidated DeltaDiff is emitted per such state delta. -/
theorem consolidated_family_diffs (target initialState : TrackedItem)
    (hev : (initialState.deltas.filter
      fun sd => decide (checkIfDeltaIsEventsType sd.1)).length ≤ 1)
    (hpat : (initialState.deltas.filter
      fun sd => decide (checkIfDeltaIsPatternType sd.1)).length ≤ 1) :
    countEventsFamily (createMergedItem target initialState) ≤ 1 ∧
    countPatternFamily (createMergedItem target initialState) ≤ 1 := by
  unfold createMergedItem countEventsFamily countPatternFamily
  by_cases h1 : ∃ sd ∈ initialState.deltas, sd.1.type = DeltaType.timeSignaturesChanged <;>
    by_cases h2 : ∃ sd ∈ initialState.deltas, checkIfDeltaIsPatternType sd.1
  all_goals
    simp only [h1, h2, if_true, if_false, if_pos, if_neg, not_false_iff,
      List.filter_append, List.length_append, List.append_nil, List.filter_nil,
      List.length_nil]
  · constructor
    · have := main_pass_count_events_le target.deltas initialState.deltas
      omega
    · have := main_pass_count_pattern_le target.deltas initialState.deltas
      omega
  · constructor
    · have ha := main_pass_count_events_le target.deltas initialState.deltas
      have hb := mergedClipsPart_events_count target.deltas
      omega
    · have ha : ∀ sd ∈ initialState.deltas, ¬ checkIfDeltaIsPatternType sd.1 :=
        fun sd hsd hc => h2 ⟨sd, hsd, hc⟩
      have hb := main_pass_count_pattern_zero target.deltas initialState.deltas ha
      have hc := mergedClipsPart_pattern_count target.deltas
      omega
  · constructor
    · have ha := main_pass_count_events_le target.deltas initialState.deltas
      have hb := mergedTimeSignaturePart_events_count target.deltas
      omega
    · have ha := main_pass_count_pattern_le target.deltas initialState.deltas
      have hb := mergedTimeSignaturePart_pattern_count target.deltas
      omega
  · constructor
    · have ha := main_pass_count_events_le target.deltas initialState.deltas
      have hb := mergedTimeSignaturePart_events_count target.deltas
      have hc := mergedClipsPart_events_count target.deltas
      omega
    · have ha : ∀ sd ∈ initialState.deltas, ¬ checkIfDeltaIsPatternType sd.1 :=
        fun sd hsd hc => h2 ⟨sd, hsd, hc⟩
      have hb := main_pass_count_pattern_zero target.deltas initialState.deltas ha
      have hc := mergedTimeSignaturePart_pattern_count target.deltas
      have hd := mergedClipsPart_pattern_count target.deltas
      omega

/-- Witness for C7 (amended) at a state with one eventsAdded delta and a
target with one eventsAdded delta. -/
theorem consolidated_family_diffs_witness :
    ((TrackedItem.mk [(⟨.eventsAdded, "a", none⟩,
        SerializedData.tree .eventsAdded [])]).deltas.filter
      fun sd => decide (checkIfDeltaIsEventsType sd.1)).length ≤ 1 ∧
    ((TrackedItem.mk [(⟨.eventsAdded, "a", none⟩,
        SerializedData.tree .eventsAdded [])]).deltas.filter
      fun sd => decide (checkIfDeltaIsPatternType sd.1)).length ≤ 1 ∧
    (countEventsFamily (createMergedItem
        (TrackedItem.mk [(⟨.eventsAdded, "t", none⟩, SerializedData.tree .eventsAdded [])])
        (TrackedItem.mk [(⟨.eventsAdded, "a", none⟩,
          SerializedData.tree .eventsAdded [])])) ≤ 1 ∧
     countPatternFamily (createMergedItem
        (TrackedItem.mk [(⟨.eventsAdded, "t", none⟩, SerializedData.tree .eventsAdded [])])
        (TrackedItem.mk [(⟨.eventsAdded, "a", none⟩,
          SerializedData.tree .eventsAdded [])])) ≤ 1) :=
  ⟨by decide, by decide,
   consolidated_family_diffs _ _ (by decide) (by decide)⟩

/-- C7 counterexample: a state carrying two events-family deltas (one
eventsAdded and one eventsChanged — legal, since the documented snapshot
invariant is at most one delta per exact type) merged against a target
carrying one eventsAdded delta yields an output with two events-family
DeltaDiffs, not at most one. -/
theorem createMergedItem_two_events_family_diffs :
    countEventsFamily (createMergedItem
      (TrackedItem.mk [(⟨.eventsAdded, "t", none⟩, SerializedData.tree .eventsAdded [])])
      (TrackedItem.mk [(⟨.eventsAdded, "a", none⟩, SerializedData.tree .eventsAdded []),
                       (⟨.eventsChanged, "b", none⟩,
                         SerializedData.tree .eventsChanged [])])) = 2 := by
  decide
